import Mathlib

/-
Formal model of the LLM request orchestration layer of the ai-notepad
application.

The development shallowly embeds the TypeScript sources:
  * `main/llm-service.ts` — the main-process orchestrator (`LLMService`):
    token-bucket `RateLimiter`, LRU/TTL response cache, provider adapters
    (`callLMStudio` with fallback to `callGemini`), error classification
    (`handleError`) and the entry points `checkGrammar`, `rephraseText`
    and `processRequest`.
  * `src/services/LLMProcessor.ts` — the renderer-side processor:
    `Debouncer.debounce`, the client cache, `handleOfflineMode` and
    `findMisspelledWords`.

Machine numbers (`Date.now()` milliseconds, token counts, confidence
values) are embedded as rationals; JavaScript strings as `String`;
`JSON.parse` as an executable recursive-descent parser over the JSON
grammar; thrown JavaScript exceptions as `Except` values; the `axios`
network calls as oracle results supplied through an `Env` record.
`await` points inside `RateLimiter.consume` are additionally exposed as
the two atomic halves `consumeStart` / `consumeWake` so that the
interleaving of concurrent consumers on the shared limiter state can be
expressed.
-/

-- ===========================================================
-- JavaScript string helpers
-- ===========================================================

/-- Whitespace characters matched by the JavaScript regexp class `\s`
(the ones relevant to text input: space, tab, newline, carriage return,
vertical tab, form feed). -/
def jsIsWs (c : Char) : Bool :=
  c = ' ' || c = '\t' || c = '\n' || c = '\x0d' || c = '\x0b' || c = '\x0c'

/-- Worker for `String.prototype.split(/\s+/)`: walks the character list,
emitting the token accumulated so far whenever a new whitespace run
starts.  JavaScript `split` yields an empty leading (resp. trailing)
token when the string starts (resp. ends) with a separator run, and this
model reproduces that. -/
def splitWsAux : List Char → Bool → List Char → List String
  | [], _, acc => [String.mk acc.reverse]
  | c :: rest, inWs, acc =>
    if jsIsWs c then
      if inWs then splitWsAux rest true acc
      else String.mk acc.reverse :: splitWsAux rest true []
    else splitWsAux rest false (c :: acc)

/-- Model of `text.split(/\s+/)` from `LLMProcessor.handleOfflineMode`. -/
def splitWs (s : String) : List String :=
  splitWsAux s.data false []

/-- Model of `String.prototype.toLowerCase` restricted to ASCII letters; every key
of the offline misspelling dictionary is ASCII, so lookups agree with the
JavaScript behaviour on all inputs. -/
def asciiLower (s : String) : String :=
  String.mk (s.data.map (fun c =>
    if 'A' ≤ c && c ≤ 'Z' then Char.ofNat (c.toNat + 32) else c))

/-- Whether `pat` occurs as a contiguous run inside `l`
(`String.prototype.includes`). -/
def containsRun (pat : List Char) : List Char → Bool
  | [] => pat.isEmpty
  | c :: rest => List.isPrefixOf pat (c :: rest) || containsRun pat rest

/-- Model of `s.includes(pat)`. -/
def strIncludes (s pat : String) : Bool :=
  containsRun pat.data s.data

-- ===========================================================
-- JSON values and `JSON.parse`
-- ===========================================================

/-- JSON values, as produced by `JSON.parse`.  Numbers are embedded as
rationals. -/
inductive Json where
  | null : Json
  | bool (b : Bool) : Json
  | num (q : ℚ) : Json
  | str (s : String) : Json
  | arr (elems : List Json) : Json
  | obj (fields : List (String × Json)) : Json

/-- The character `{` (written by code to keep JSON test strings free of
brace characters). -/
def lbrace : Char := Char.ofNat 123

/-- The character `}`. -/
def rbrace : Char := Char.ofNat 125

/-- Drop leading JSON whitespace. -/
def skipJsonWs : List Char → List Char
  | c :: rest =>
    if c = ' ' || c = '\t' || c = '\n' || c = '\x0d' then skipJsonWs rest
    else c :: rest
  | [] => []

/-- Numeric value of a decimal digit character. -/
def digitsToNat (ds : List Char) : Nat :=
  ds.foldl (fun a c => a * 10 + (c.toNat - 48)) 0

/-- Whether a character is a hexadecimal digit. -/
def isHexCh (c : Char) : Bool :=
  ('0' ≤ c && c ≤ '9') || ('a' ≤ c && c ≤ 'f') || ('A' ≤ c && c ≤ 'F')

/-- Value of a hexadecimal digit character (for `\uXXXX` escapes). -/
def hexVal (c : Char) : Nat :=
  if '0' ≤ c && c ≤ '9' then c.toNat - 48
  else if 'a' ≤ c && c ≤ 'f' then c.toNat - 87
  else if 'A' ≤ c && c ≤ 'F' then c.toNat - 55
  else 0

/-- Parse the body of a JSON string literal (the opening quote already
consumed), handling the escape sequences of the JSON grammar.  Returns
the decoded string and the remaining input. -/
def parseStringBody : List Char → List Char → Option (String × List Char)
  | acc, '"' :: rest => some (String.mk acc.reverse, rest)
  | acc, '\\' :: esc => (match esc with
    | '"' :: rest => parseStringBody ('"' :: acc) rest
    | '\\' :: rest => parseStringBody ('\\' :: acc) rest
    | '/' :: rest => parseStringBody ('/' :: acc) rest
    | 'n' :: rest => parseStringBody ('\n' :: acc) rest
    | 't' :: rest => parseStringBody ('\t' :: acc) rest
    | 'r' :: rest => parseStringBody ('\x0d' :: acc) rest
    | 'b' :: rest => parseStringBody ('\x08' :: acc) rest
    | 'f' :: rest => parseStringBody ('\x0c' :: acc) rest
    | 'u' :: a :: b :: c :: d :: rest =>
      if isHexCh a && isHexCh b && isHexCh c && isHexCh d then
        parseStringBody
          (Char.ofNat (((hexVal a * 16 + hexVal b) * 16 + hexVal c) * 16 + hexVal d) :: acc) rest
      else none
    | _ => none)
  | acc, c :: rest => parseStringBody (c :: acc) rest
  | _, [] => none

/-- Parse a JSON number (integer part, optional fraction, optional
exponent) into a rational. -/
def parseNumber (cs : List Char) : Option (ℚ × List Char) :=
  let (neg, cs1) : Bool × List Char :=
    match cs with
    | '-' :: r => (true, r)
    | _ => (false, cs)
  let (ds, cs2) := cs1.span Char.isDigit
  if ds.isEmpty then none
  else
    let intPart : ℚ := (digitsToNat ds : ℤ)
    let (withFrac, cs3) : ℚ × List Char :=
      match cs2 with
      | '.' :: r =>
        let (fs, r2) := r.span Char.isDigit
        if fs.isEmpty then (intPart, cs2)
        else (intPart + (digitsToNat fs : ℚ) / ((10 : ℚ) ^ fs.length), r2)
      | _ => (intPart, cs2)
    let (withExp, cs4) : ℚ × List Char :=
      match cs3 with
      | 'e' :: r => (withFrac, 'e' :: r)
      | 'E' :: r => (withFrac, 'E' :: r)
      | _ => (withFrac, cs3)
    let (final, cs5) : ℚ × List Char :=
      match cs4 with
      | 'e' :: '-' :: r =>
        let (es, r2) := r.span Char.isDigit
        if es.isEmpty then (withExp, cs4) else (withExp / (10 : ℚ) ^ digitsToNat es, r2)
      | 'e' :: '+' :: r =>
        let (es, r2) := r.span Char.isDigit
        if es.isEmpty then (withExp, cs4) else (withExp * (10 : ℚ) ^ digitsToNat es, r2)
      | 'e' :: r =>
        let (es, r2) := r.span Char.isDigit
        if es.isEmpty then (withExp, cs4) else (withExp * (10 : ℚ) ^ digitsToNat es, r2)
      | 'E' :: '-' :: r =>
        let (es, r2) := r.span Char.isDigit
        if es.isEmpty then (withExp, cs4) else (withExp / (10 : ℚ) ^ digitsToNat es, r2)
      | 'E' :: '+' :: r =>
        let (es, r2) := r.span Char.isDigit
        if es.isEmpty then (withExp, cs4) else (withExp * (10 : ℚ) ^ digitsToNat es, r2)
      | 'E' :: r =>
        let (es, r2) := r.span Char.isDigit
        if es.isEmpty then (withExp, cs4) else (withExp * (10 : ℚ) ^ digitsToNat es, r2)
      | _ => (withExp, cs4)
    some (if neg then -final else final, cs5)

mutual

/-- Recursive-descent parser for a JSON value (model of `JSON.parse`).
`fuel` bounds nesting depth; callers supply more fuel than the input
length, which is always sufficient since every nesting level consumes at
least one character. -/
def parseValue : Nat → List Char → Option (Json × List Char)
  | 0, _ => none
  | Nat.succ fuel, cs0 =>
    match skipJsonWs cs0 with
    | [] => none
    | 'n' :: 'u' :: 'l' :: 'l' :: rest => some (.null, rest)
    | 't' :: 'r' :: 'u' :: 'e' :: rest => some (.bool true, rest)
    | 'f' :: 'a' :: 'l' :: 's' :: 'e' :: rest => some (.bool false, rest)
    | '"' :: rest =>
      match parseStringBody [] rest with
      | some (s, r) => some (.str s, r)
      | none => none
    | '[' :: rest =>
      (match skipJsonWs rest with
       | ']' :: r2 => some (.arr [], r2)
       | r2 =>
         match parseItems fuel r2 with
         | some (xs, r3) => some (.arr xs, r3)
         | none => none)
    | c :: rest =>
      if c = lbrace then
        match skipJsonWs rest with
        | c2 :: r2 =>
          if c2 = rbrace then some (.obj [], r2)
          else
            (match parseMembers fuel (c2 :: r2) with
             | some (fs, r3) => some (.obj fs, r3)
             | none => none)
        | [] => none
      else parseNumber (c :: rest) |>.map (fun p => (.num p.1, p.2))

/-- Comma-separated JSON values followed by `]`. -/
def parseItems : Nat → List Char → Option (List Json × List Char)
  | 0, _ => none
  | Nat.succ fuel, cs =>
    match parseValue fuel cs with
    | none => none
    | some (v, rest) =>
      match skipJsonWs rest with
      | ',' :: r2 =>
        (match parseItems fuel r2 with
         | some (xs, r3) => some (v :: xs, r3)
         | none => none)
      | ']' :: r2 => some ([v], r2)
      | _ => none

/-- Comma-separated `"key": value` pairs followed by `}`. -/
def parseMembers : Nat → List Char → Option (List (String × Json) × List Char)
  | 0, _ => none
  | Nat.succ fuel, cs =>
    match skipJsonWs cs with
    | '"' :: rest =>
      (match parseStringBody [] rest with
       | none => none
       | some (key, r1) =>
         match skipJsonWs r1 with
         | ':' :: r2 =>
           (match parseValue fuel r2 with
            | none => none
            | some (v, r3) =>
              match skipJsonWs r3 with
              | ',' :: r4 =>
                (match parseMembers fuel r4 with
                 | some (fs, r5) => some ((key, v) :: fs, r5)
                 | none => none)
              | c :: r4 =>
                if c = rbrace then some ([(key, v)], r4) else none
              | [] => none)
         | _ => none)
    | _ => none

end

/-- Model of `JSON.parse`: parse a complete JSON document; trailing whitespace is
permitted, anything else after the value is a syntax error. -/
def jsonParse (s : String) : Option Json :=
  match parseValue (s.data.length + 2) s.data with
  | some (v, rest) => if skipJsonWs rest = [] then some v else none
  | none => none


-- ===========================================================
-- JavaScript value coercions used by the suggestion mapper
-- ===========================================================

/-- JavaScript truthiness of a parsed JSON value (`null`, `false`, `0`
and `""` are falsy; objects and arrays are always truthy). -/
def jsTruthy : Json → Bool
  | .null => false
  | .bool b => b
  | .num q => !(q == 0)
  | .str s => !(s == "")
  | .arr _ => true
  | .obj _ => true

/-- Last-wins lookup in a JSON object's field list (`JSON.parse` keeps
the last duplicate key). -/
def lookupLast (fields : List (String × Json)) (key : String) : Option Json :=
  fields.foldl (fun acc p => if p.1 = key then some p.2 else acc) none

/-- JavaScript property access `v[key]` on a parsed JSON value: `none`
models `undefined` (missing field, or access on a non-object
primitive).  Access on `null` is handled separately by the caller since
it throws. -/
def jsGetField (v : Json) (key : String) : Option Json :=
  match v with
  | .obj fields => lookupLast fields key
  | _ => none

/-- JavaScript `a || b` where `a` is an optionally-present field value:
the default is used when the field is absent (`undefined`) or falsy. -/
def jsOr (v : Option Json) (dflt : Json) : Json :=
  match v with
  | none => dflt
  | some x => if jsTruthy x then x else dflt

-- ===========================================================
-- Data model of llm-service.ts
-- ===========================================================

/-- Interface `LLMRequest` from `main/llm-service.ts`. -/
structure LLMRequest where
  text : String
  operation : String
  style : Option String
  language : Option String

/-- One element of `LLMResponse.suggestions`.  The TypeScript interface
declares `text: string`, `confidence: number`, `type: string`, but the
values actually stored come from `suggestions.map` over arbitrary parsed
JSON, so the fields are embedded as JSON values (`text` is `none` when
the provider object lacks a `text` property, i.e. `undefined`). -/
structure SSuggestion where
  text : Option Json
  confidence : Json
  type : Json

/-- Interface `LLMResponse` from `main/llm-service.ts`. -/
structure LLMResponse where
  original : String
  suggestions : List SSuggestion
  error : Option String

-- Error codes from `src/interfaces/constants.ts` (the subset used by
-- `LLMService.handleError`).
namespace ErrorCodes

def UNKNOWN_ERROR : String := "ERR_UNKNOWN"

def API_ERROR : String := "ERR_API"

def NETWORK_ERROR : String := "ERR_NETWORK"

def TIMEOUT_ERROR : String := "ERR_TIMEOUT"

def AUTH_ERROR : String := "ERR_AUTH"

end ErrorCodes

/-- The part of an axios error response inspected by `handleError`:
`error.response.status`, `error.response.statusText`,
`error.response.data?.error?.message` (Gemini format) and
`error.response.data?.error` when it is a string. -/
structure ErrResponseInfo where
  status : ℕ
  statusText : String
  dataErrorMessage : Option String
  dataError : Option String

/-- A thrown JavaScript exception as classified by `handleError`: either
an axios error (with optional `response`, and `request` set when the
request was dispatched), or an ordinary `Error` with a message. -/
inductive CaughtError where
  | axios (response : Option ErrResponseInfo) (hasRequest : Bool)
  | error (message : String)

-- ===========================================================
-- RateLimiter (main/llm-service.ts lines 24-65)
-- ===========================================================

/-- Model of `Math.min` on rationals, kept as an explicit conditional so that
closed limiter states evaluate by `decide`. -/
def mathMin (a b : ℚ) : ℚ := if a ≤ b then a else b

/-- Model of `Math.max` on rationals. -/
def mathMax (a b : ℚ) : ℚ := if a ≤ b then b else a

/-- Lemma: `mathMin` agrees with Mathlib's `min`. -/
theorem mathMin_eq_min (a b : ℚ) : mathMin a b = min a b := by
  rw [mathMin, min_def]

/-- Lemma: `mathMax` agrees with Mathlib's `max`. -/
theorem mathMax_eq_max (a b : ℚ) : mathMax a b = max a b := by
  rw [mathMax, max_def]

/-- State of the token-bucket `RateLimiter`.  Times are `Date.now()`
milliseconds. -/
structure RateLimiter where
  tokens : ℚ
  maxTokens : ℚ
  refillRate : ℚ
  lastRefillTimestamp : ℚ

/-- Model of `RateLimiter.refill`: add `elapsedSeconds * refillRate` tokens,
capped at `maxTokens`, and update the timestamp. -/
def RateLimiter.refill (now : ℚ) (s : RateLimiter) : RateLimiter :=
  let elapsedSeconds := (now - s.lastRefillTimestamp) / 1000
  let tokensToAdd := elapsedSeconds * s.refillRate
  { s with tokens := mathMin s.maxTokens (s.tokens + tokensToAdd),
           lastRefillTimestamp := now }

/-- First atomic half of `RateLimiter.consume`, up to the `await` on
`setTimeout`: refill, and either debit immediately (result `none`) or
report the wake-up deadline `now + (cost - tokens) * (1000 / refillRate)`
without debiting (result `some deadline`). -/
def RateLimiter.consumeStart (cost now : ℚ) (s : RateLimiter) :
    Option ℚ × RateLimiter :=
  let s1 := s.refill now
  if cost ≤ s1.tokens then (none, { s1 with tokens := s1.tokens - cost })
  else (some (now + (cost - s1.tokens) * (1000 / s1.refillRate)), s1)

/-- Second atomic half of `RateLimiter.consume`, resumed at wall-clock
time `wake` after the `setTimeout` wait: refill again, then debit
unconditionally. -/
def RateLimiter.consumeWake (cost wake : ℚ) (s : RateLimiter) : RateLimiter :=
  let s1 := s.refill wake
  { s1 with tokens := s1.tokens - cost }

/-- Model of `RateLimiter.consume(cost)` run without interleaving: the caller is
resumed at time `wake` (`setTimeout` never fires before its delay, so a
sequential execution satisfies `deadline ≤ wake`).  Always returns
`true`. -/
def RateLimiter.consume (cost now wake : ℚ) (s : RateLimiter) :
    Bool × RateLimiter :=
  match s.consumeStart cost now with
  | (none, s1) => (true, s1)
  | (some _, s1) => (true, s1.consumeWake cost wake)

-- ===========================================================
-- LRU/TTL response cache (lru-cache with max 100, ttl 1h)
-- ===========================================================

/-- A cached value with its insertion time (for TTL expiry). -/
structure TimedEntry (α : Type) where
  value : α
  insertedAt : ℚ

/-- Cache TTL: `1000 * 60 * 60` milliseconds. -/
def cacheTtlMs : ℚ := 1000 * 60 * 60

/-- Cache capacity: `max: 100`. -/
def cacheMax : ℕ := 100

/-- Model of `cache.get(key)` at wall-clock `now`: a present but expired entry is
treated as absent (`allowStale: false`).  The recency refresh performed
by `lru-cache` on reads only affects eviction order, which no property
below depends on, so the read is modelled as pure. -/
def cacheGet {α : Type} (c : List (String × TimedEntry α)) (now : ℚ)
    (k : String) : Option α :=
  match c.lookup k with
  | some e => if now - e.insertedAt ≤ cacheTtlMs then some e.value else none
  | none => none

/-- Model of `cache.set(key, v)` at wall-clock `now`: the new entry becomes the
most recent; at capacity the least-recently-used entry (list tail) is
evicted. -/
def cacheSet {α : Type} (c : List (String × TimedEntry α)) (now : ℚ)
    (k : String) (v : α) : List (String × TimedEntry α) :=
  ((k, ⟨v, now⟩) :: c.filter (fun p => p.1 != k)).take cacheMax

-- ===========================================================
-- Provider payload parsing (llm-service.ts lines 230-248, 332-350)
-- ===========================================================

/-- Index of the first occurrence of `c`. -/
def firstIdxOf (c : Char) : List Char → Option ℕ
  | [] => none
  | x :: xs => if x = c then some 0 else (firstIdxOf c xs).map (· + 1)

/-- Index of the last occurrence of `c`. -/
def lastIdxOf (c : Char) (l : List Char) : Option ℕ :=
  (firstIdxOf c l.reverse).map (fun k => l.length - 1 - k)

/-- Model of `responseText.match(/\[.*\]/s)` on a character list: with the
dot-matches-newline flag and a greedy `.*`, the regexp matches from the
first `[` to the last `]` of the whole text whenever the first `[` is
followed by some `]`, and fails otherwise. -/
def extractJsonArrayAux (cs : List Char) : Option (List Char) :=
  match firstIdxOf '[' cs, lastIdxOf ']' cs with
  | some i, some j =>
    if i < j then some ((cs.drop i).take (j - i + 1))
    else none
  | _, _ => none

/-- Model of `responseText.match(/\[.*\]/s)`, returning the matched substring. -/
def extractJsonArray (s : String) : Option String :=
  (extractJsonArrayAux s.data).map String.mk

/-- Message of the `SyntaxError` thrown by `JSON.parse` on malformed
input.  The engine-specific wording varies; it never contains
`"API key"` or `"timeout"`, which is all `handleError` inspects. -/
def jsonParseThrowMsg : String := "Unexpected token in JSON"

/-- The mapper `s => ({text: s.text, confidence: s.confidence || 0.8,
type: s.type || 'unknown'})` applied to one parsed array element.
Property access on `null` throws a `TypeError`. -/
def convertOne (x : Json) : Except CaughtError SSuggestion :=
  match x with
  | .null => .error (.error "Cannot read properties of null")
  | x => .ok { text := jsGetField x "text",
               confidence := jsOr (jsGetField x "confidence") (.num 0.8),
               type := jsOr (jsGetField x "type") (.str "unknown") }

/-- Model of `suggestions.map(...)`: left-to-right, aborting at the first thrown
`TypeError`. -/
def convertSuggestions : List Json → Except CaughtError (List SSuggestion)
  | [] => .ok []
  | x :: xs =>
    match convertOne x with
    | .error e => .error e
    | .ok s =>
      match convertSuggestions xs with
      | .error e => .error e
      | .ok rest => .ok (s :: rest)

/-- The shared parse-and-format tail of `callLMStudio` and `callGemini`:
extract the bracketed substring (throwing `noMatchMsg` when the regexp
fails), `JSON.parse` it, and map the elements into suggestions.  On
success the constructed `LLMResponse` has no `error` field. -/
def parseProviderPayload (noMatchMsg : String) (originalText : String)
    (responseText : String) : Except CaughtError LLMResponse :=
  match extractJsonArray responseText with
  | none => .error (.error noMatchMsg)
  | some sub =>
    match jsonParse sub with
    | none => .error (.error jsonParseThrowMsg)
    | some (.arr elems) =>
      (match convertSuggestions elems with
       | .error e => .error e
       | .ok ss => .ok { original := originalText, suggestions := ss, error := none })
    | some _ => .error (.error "suggestions.map is not a function")

-- ===========================================================
-- Provider adapters and orchestrator (llm-service.ts lines 100-412)
-- ===========================================================

/-- Inputs a single `processRequest` execution receives from its
surroundings: the wall clock at the start of the call, the wall clock
when a rate-limiter `setTimeout` wait (if any) resumes, and the outcome
of each provider's `axios.post` — either the raw response text reached
by the success path, or the thrown error. -/
structure Env where
  now : ℚ
  wake : ℚ
  lmResult : Except CaughtError String
  geminiResult : Except CaughtError String

/-- Model of `LLMService.callGemini`, with the network call replaced by the
`Env` oracle: missing API key and unsupported operation throw before any
network activity; an axios failure rethrows; a successful payload goes
through `parseProviderPayload`. -/
def callGemini (env : Env) (geminiKey : String) (req : LLMRequest) :
    Except CaughtError LLMResponse :=
  if geminiKey = "" then .error (.error "Gemini API key not configured")
  else if req.operation = "grammar-check" ∨ req.operation = "rephrase" then
    match env.geminiResult with
    | .error e => .error e
    | .ok responseText =>
      parseProviderPayload "Failed to parse Gemini response" req.text responseText
  else .error (.error ("Unsupported operation: " ++ req.operation))

/-- The `try` block of `LLMService.callLMStudio` (prompt construction,
network call, payload parsing) — everything before its `catch`. -/
def callLMStudioPrimary (env : Env) (req : LLMRequest) :
    Except CaughtError LLMResponse :=
  if req.operation = "grammar-check" ∨ req.operation = "rephrase" then
    match env.lmResult with
    | .error e => .error e
    | .ok responseText =>
      parseProviderPayload "Failed to parse LM Studio response" req.text responseText
  else .error (.error ("Unsupported operation: " ++ req.operation))

/-- Model of `LLMService.callLMStudio` including its `catch`: on any failure, if
`apiKeys.gemini` is non-empty, fall back to `callGemini` (once — the
fallback's own failure rethrows); otherwise rethrow the primary error.
The second component counts `callGemini` invocations. -/
def callLMStudio (env : Env) (geminiKey : String) (req : LLMRequest) :
    Except CaughtError LLMResponse × ℕ :=
  match callLMStudioPrimary env req with
  | .ok r => (.ok r, 0)
  | .error e =>
    if geminiKey = "" then (.error e, 0)
    else (callGemini env geminiKey req, 1)

/-- Model of `LLMService.handleError`: classify a caught exception into an error
code and message, and return an error `LLMResponse` with empty
suggestions. -/
def handleError (e : CaughtError) (req : LLMRequest) : LLMResponse :=
  let (errorMessage, errorCode) : String × String :=
    match e with
    | .axios (some r) _ =>
      (match r.dataErrorMessage with
       | some m =>
         ("API Error: " ++ toString r.status ++ " - " ++ m, ErrorCodes.API_ERROR)
       | none =>
         let d := match r.dataError with
           | some s => if s = "" then r.statusText else s
           | none => r.statusText
         ("API Error: " ++ toString r.status ++ " - " ++ d, ErrorCodes.API_ERROR))
    | .axios none true =>
      ("No response received from LLM service", ErrorCodes.NETWORK_ERROR)
    | .axios none false => ("Unknown error occurred", ErrorCodes.UNKNOWN_ERROR)
    | .error msg =>
      (msg,
       if strIncludes msg "API key" then ErrorCodes.AUTH_ERROR
       else if strIncludes msg "timeout" then ErrorCodes.TIMEOUT_ERROR
       else ErrorCodes.UNKNOWN_ERROR)
  { original := req.text, suggestions := [],
    error := some (errorCode ++ ": " ++ errorMessage) }

/-- Model of `LLMService.generateCacheKey`. -/
def generateCacheKey (req : LLMRequest) : String :=
  req.operation ++ ":" ++ req.style.getD "" ++ ":" ++ req.language.getD ""
    ++ ":" ++ req.text

/-- The mutable fields of `LLMService` touched by request processing. -/
structure ServiceState where
  provider : String
  geminiKey : String
  cache : List (String × TimedEntry LLMResponse)
  rateLimiter : RateLimiter

/-- Result of one `processRequest` execution: the settled response, the
service state afterwards, and how many times each adapter
(`callLMStudio` / `callGemini`) was invoked. -/
structure ProcResult where
  response : LLMResponse
  state : ServiceState
  lmCalls : ℕ
  geminiCalls : ℕ

/-- The provider-selection branch of `processRequest`
(`if (this.provider === 'local' || this.provider === 'lmstudio')`),
returning the adapter outcome together with the number of
`callLMStudio` and `callGemini` invocations it performed. -/
def dispatchProvider (env : Env) (st : ServiceState) (req : LLMRequest) :
    Except CaughtError LLMResponse × ℕ × ℕ :=
  if st.provider = "local" ∨ st.provider = "lmstudio" then
    ((callLMStudio env st.geminiKey req).1, 1, (callLMStudio env st.geminiKey req).2)
  else (callGemini env st.geminiKey req, 0, 1)

/-- Model of `LLMService.processRequest`: cache lookup; on a hit return the
cached response immediately; on a miss consume one rate-limiter token,
dispatch to the provider selected by `this.provider`, cache a successful
response, and convert any thrown error into an error response via
`handleError`. -/
def processRequest (env : Env) (st : ServiceState) (req : LLMRequest) :
    ProcResult :=
  let cacheKey := generateCacheKey req
  match cacheGet st.cache env.now cacheKey with
  | some cached => ⟨cached, st, 0, 0⟩
  | none =>
    let rl := (st.rateLimiter.consume 1 env.now env.wake).2
    let st1 : ServiceState := { st with rateLimiter := rl }
    match dispatchProvider env st req with
    | (.ok resp, l, g) =>
      ⟨resp, { st1 with cache := cacheSet st1.cache env.now cacheKey resp }, l, g⟩
    | (.error e, l, g) => ⟨handleError e req, st1, l, g⟩

/-- Model of `LLMService.checkGrammar`: empty text throws `'Invalid text input'`,
which the function's own `catch` immediately converts into an error
response via `handleError` — nothing is rejected to the caller and no
cache, rate-limiter or network activity happens on that path. -/
def checkGrammar (env : Env) (st : ServiceState) (text language : String) :
    ProcResult :=
  let req : LLMRequest :=
    { text := text, operation := "grammar-check", style := none,
      language := some language }
  if text = "" then
    ⟨handleError (.error "Invalid text input") req, st, 0, 0⟩
  else processRequest env st req

/-- Model of `LLMService.rephraseText`, same shape as `checkGrammar`. -/
def rephraseText (env : Env) (st : ServiceState) (text style : String) :
    ProcResult :=
  let req : LLMRequest :=
    { text := text, operation := "rephrase", style := some style,
      language := none }
  if text = "" then
    ⟨handleError (.error "Invalid text input") req, st, 0, 0⟩
  else processRequest env st req

-- ===========================================================
-- Renderer-side processor (src/services/LLMProcessor.ts)
-- ===========================================================

/-- A value produced by a JavaScript property read on the misspelling
dictionary object of `LLMProcessor.findMisspelledWords`: either one of
the literal's own entries (a replacement string), or a member inherited
from `Object.prototype` — the object literal is not a null-prototype
map, so a read like `commonMisspellings['constructor']` yields the
inherited function, a truthy value. -/
inductive JsPropValue where
  | str (s : String)
  | protoMember (name : String)
  deriving DecidableEq

instance : Coe String JsPropValue := ⟨JsPropValue.str⟩

/-- Property names of `Object.prototype`, inherited by every plain
object literal; each is bound to a function or object, hence truthy. -/
def objectPrototypeMembers : List String :=
  ["constructor", "hasOwnProperty", "isPrototypeOf", "propertyIsEnumerable",
   "toLocaleString", "toString", "valueOf", "__defineGetter__",
   "__defineSetter__", "__lookupGetter__", "__lookupSetter__", "__proto__"]

/-- JavaScript property read `dict[key]` on an object literal: an own
key yields its string value; otherwise the prototype chain is consulted,
so an `Object.prototype` member name yields that (truthy) inherited
member; any other key is `undefined` (`none`). -/
def jsRecordGet (dict : List (String × String)) (key : String) :
    Option JsPropValue :=
  match dict.lookup key with
  | some v => some (JsPropValue.str v)
  | none => if key ∈ objectPrototypeMembers
            then some (JsPropValue.protoMember key) else none

/-- A suggestion as constructed by the renderer-side offline path; its
`text` carries whatever value the dictionary read produced (the
replacement string for an own key, the inherited member otherwise). -/
structure ClientSuggestion where
  text : JsPropValue
  confidence : ℚ
  type : String
  deriving DecidableEq

/-- The renderer-side `LLMResponse` (src/interfaces/types). -/
structure ClientResponse where
  original : String
  suggestions : List ClientSuggestion
  error : Option String
  deriving DecidableEq

/-- The own keys of the misspelling-dictionary object literal from
`LLMProcessor.findMisspelledWords`. -/
def commonMisspellings : List (String × String) :=
  [("teh", "the"), ("adn", "and"), ("waht", "what"), ("thier", "their"),
   ("recieve", "receive"), ("alot", "a lot"), ("seperate", "separate"),
   ("definately", "definitely"), ("accomodate", "accommodate"),
   ("occured", "occurred"), ("untill", "until"), ("wierd", "weird")]

/-- Model of `LLMProcessor.findMisspelledWords`: keep the words whose
lowercase form reads a truthy property off the dictionary object (an own
key or an inherited `Object.prototype` member), paired with the value
read. -/
def findMisspelledWords (words : List String) : List (String × JsPropValue) :=
  (words.filter (fun w => (jsRecordGet commonMisspellings (asciiLower w)).isSome)).map
    (fun w => (w, (jsRecordGet commonMisspellings (asciiLower w)).getD (JsPropValue.str "")))

/-- Model of `LLMProcessor.handleOfflineMode`: whitespace-split the text, scan
the misspelling dictionary, and emit one `{text, confidence: 0.7, type:
'spelling'}` suggestion per match; when no suggestion is produced the
`error` field is set to `'No issues found in offline mode'`. -/
def handleOfflineMode (text : String) : ClientResponse :=
  let words := splitWs text
  let misspelledWords := findMisspelledWords words
  let suggestions := misspelledWords.map (fun w =>
    { text := w.2, confidence := 0.7, type := "spelling" : ClientSuggestion })
  { original := text, suggestions := suggestions,
    error := if suggestions.length = 0
             then some "No issues found in offline mode" else none }

/-- The cache key `` `grammar:${language || 'en'}:${text}` `` of
`LLMProcessor.checkGrammar`. -/
def clientGrammarKey (text : String) (language : Option String) : String :=
  "grammar:" ++ language.getD "en" ++ ":" ++ text

/-- One execution of the debounced body of `LLMProcessor.checkGrammar`
(the thunk run when the debounce timer fires), together with the
cache-first short-circuit that precedes the debouncing: on a cache hit
the cached response is returned at once; on a miss, offline mode is
handled locally with no IPC, and otherwise the IPC result (supplied as
an oracle) is returned and cached only when it has no `error`.  The
final component counts IPC invocations. -/
def clientCheckGrammar (online : Bool) (ipcResponse : ClientResponse)
    (now : ℚ) (cache : List (String × TimedEntry ClientResponse))
    (text : String) (language : Option String) :
    ClientResponse × List (String × TimedEntry ClientResponse) × ℕ :=
  let cacheKey := clientGrammarKey text language
  match cacheGet cache now cacheKey with
  | some cached => (cached, cache, 0)
  | none =>
    if !online then (handleOfflineMode text, cache, 0)
    else
      let newCache :=
        if ipcResponse.error = none then cacheSet cache now cacheKey ipcResponse
        else cache
      (ipcResponse, newCache, 1)

-- ===========================================================
-- Debouncer (src/services/LLMProcessor.ts lines 6-39)
-- ===========================================================

/-- State of a `Debouncer` instance: the pending timer (its absolute
fire time and the index of the `debounce()` call that scheduled it) and
`lastCall`, which the source updates only inside the timer callback (it
starts at `0`). -/
structure DebounceState where
  timeout : Option (ℚ × ℕ)
  lastCall : ℚ

/-- The event-loop step that runs a scheduled timer callback: if the
pending timer's fire time has passed before wall-clock `t`, the callback
executes — recording `(fireTime, caller)` as an underlying invocation,
resolving exactly that caller's promise — and sets `lastCall`. -/
def fireIfDue (t : ℚ) (s : DebounceState) (ex : List (ℚ × ℕ)) :
    DebounceState × List (ℚ × ℕ) :=
  match s.timeout with
  | some (ft, i) =>
    if ft < t then ({ timeout := none, lastCall := ft }, ex ++ [(ft, i)])
    else (s, ex)
  | none => (s, ex)

/-- Model of `Debouncer.debounce` called at time `t` by caller `i`: clear any
existing timeout (whose promise is thereby left forever pending) and
schedule a new one after `max(0, delay - (t - lastCall))`. -/
def registerCall (delay t : ℚ) (i : ℕ) (s : DebounceState) : DebounceState :=
  { timeout := some (t + mathMax 0 (delay - (t - s.lastCall)), i),
    lastCall := s.lastCall }

/-- Run a chronological burst of `debounce()` calls `(time, caller)`
against the event loop: before each call, any timer already due fires;
then the call registers its own timer. -/
def runCalls (delay : ℚ) :
    DebounceState → List (ℚ × ℕ) → List (ℚ × ℕ) → DebounceState × List (ℚ × ℕ)
  | s, ex, [] => (s, ex)
  | s, ex, (t, i) :: rest =>
    let (s1, ex1) := fireIfDue t s ex
    runCalls delay (registerCall delay t i s1) ex1 rest

/-- All underlying invocations produced by a burst of `debounce()`
calls, once the event loop finally drains (the last pending timer, if
any, fires).  Each recorded pair `(fireTime, caller)` settles exactly
that caller's promise; a caller absent from the list has a promise that
never settles. -/
def runDebounce (delay : ℚ) (s : DebounceState) (calls : List (ℚ × ℕ)) :
    List (ℚ × ℕ) :=
  match runCalls delay s [] calls with
  | (sf, ex) =>
    match sf.timeout with
    | some (ft, i) => ex ++ [(ft, i)]
    | none => ex

-- ===========================================================
-- Basic lemmas about the embedded operations
-- ===========================================================

/-- Lemma: `handleError` always returns a response whose `error` field is set. -/
theorem handleError_isSome (e : CaughtError) (req : LLMRequest) :
    (handleError e req).error.isSome := by
  cases e with
  | axios resp hasReq =>
    cases resp with
    | none => cases hasReq <;> rfl
    | some r =>
      rcases r with ⟨st, stx, dem, de⟩
      cases dem <;> rfl
  | error m => rfl

/-- Lemma: `handleError` always returns a response with empty suggestions. -/
theorem handleError_suggestions_nil (e : CaughtError) (req : LLMRequest) :
    (handleError e req).suggestions = [] := by
  cases e with
  | axios resp hasReq =>
    cases resp with
    | none => cases hasReq <;> rfl
    | some r =>
      rcases r with ⟨st, stx, dem, de⟩
      cases dem <;> rfl
  | error m => rfl

/-- A successfully parsed provider payload never carries an `error`
field. -/
theorem parseProviderPayload_ok_no_error (m o t : String) (r : LLMResponse)
    (h : parseProviderPayload m o t = .ok r) : r.error = none := by
  unfold parseProviderPayload at h
  repeat' split at h
  all_goals first
    | exact Except.noConfusion h
    | (injection h with h2; rw [← h2])

/-- A successful `callGemini` result never carries an `error` field. -/
theorem callGemini_ok_no_error (env : Env) (k : String) (req : LLMRequest)
    (r : LLMResponse) (h : callGemini env k req = .ok r) : r.error = none := by
  unfold callGemini at h
  split at h
  · exact absurd h (by simp)
  · split at h
    · split at h
      · exact absurd h (by simp)
      · exact parseProviderPayload_ok_no_error _ _ _ _ h
    · exact absurd h (by simp)

/-- A successful `callLMStudio` result (primary or fallback) never
carries an `error` field. -/
theorem callLMStudio_ok_no_error (env : Env) (k : String) (req : LLMRequest)
    (r : LLMResponse) (g : ℕ) (h : callLMStudio env k req = (.ok r, g)) :
    r.error = none := by
  unfold callLMStudio at h
  split at h
  · rename_i r1 h1
    simp only [Prod.mk.injEq, Except.ok.injEq] at h
    rw [← h.1]
    unfold callLMStudioPrimary at h1
    split at h1
    · split at h1
      · exact absurd h1 (by simp)
      · exact parseProviderPayload_ok_no_error _ _ _ _ h1
    · exact absurd h1 (by simp)
  · split at h
    · simp at h
    · simp only [Prod.mk.injEq] at h
      exact callGemini_ok_no_error _ _ _ _ h.1

/-- Reading back a freshly written cache entry within the TTL yields the
written value. -/
theorem cacheGet_cacheSet_same {α : Type} (c : List (String × TimedEntry α))
    (now now2 : ℚ) (k : String) (v : α) (h : now2 - now ≤ cacheTtlMs) :
    cacheGet (cacheSet c now k v) now2 k = some v := by
  simp [cacheSet, cacheMax, cacheGet, List.lookup, h]

/-- Every entry of `cacheSet c now k v` is the new entry or one of `c`. -/
theorem mem_cacheSet {α : Type} {c : List (String × TimedEntry α)}
    {now : ℚ} {k : String} {v : α} {p : String × TimedEntry α}
    (h : p ∈ cacheSet c now k v) :
    p = (k, ⟨v, now⟩) ∨ p ∈ c := by
  have h1 : p ∈ (k, (⟨v, now⟩ : TimedEntry α)) :: c.filter (fun q => q.1 != k) :=
    List.take_subset _ _ h
  rcases List.mem_cons.mp h1 with h2 | h2
  · exact Or.inl h2
  · exact Or.inr (List.mem_of_mem_filter h2)

-- ===========================================================
-- Claim C9 — offline fallback
-- ===========================================================

/-- C9: when connectivity is signalled offline, grammar checking
performs no IPC/network call and scans the whitespace-split tokens
against the fixed misspelling dictionary; on input `"teh cat sat"` the
response contains exactly the suggestion
`{text: "the", confidence: 0.7, type: "spelling"}`. -/
theorem offline_fallback_teh (ipc : ClientResponse) (now : ℚ)
    (cache : List (String × TimedEntry ClientResponse))
    (hmiss : cacheGet cache now (clientGrammarKey "teh cat sat" none) = none) :
    clientCheckGrammar false ipc now cache "teh cat sat" none
      = ({ original := "teh cat sat",
           suggestions := [{ text := "the", confidence := 0.7, type := "spelling" }],
           error := none }, cache, 0) := by
  simp only [clientCheckGrammar, hmiss]
  rfl

/-- C9 witness: the offline scenario run from an empty cache. -/
theorem offline_fallback_teh_witness :
    cacheGet ([] : List (String × TimedEntry ClientResponse)) (0 : ℚ)
        (clientGrammarKey "teh cat sat" none) = none ∧
    clientCheckGrammar false ⟨"", [], none⟩ 0 [] "teh cat sat" none
      = ({ original := "teh cat sat",
           suggestions := [{ text := "the", confidence := 0.7, type := "spelling" }],
           error := none }, [], 0) :=
  ⟨rfl, offline_fallback_teh ⟨"", [], none⟩ 0 [] rfl⟩

-- ===========================================================
-- Claim C10 — clean text in offline mode
-- ===========================================================

/-- C10 counterexample: the dictionary object literal inherits
`Object.prototype`, so for input `"constructor"` — whose sole token
matches none of the twelve misspelling entries — the read
`commonMisspellings['constructor']` yields the inherited (truthy)
constructor function: the offline response carries a spurious spelling
suggestion built from that inherited member and its `error` field stays
unset, instead of the claimed empty suggestions with `"No issues found
in offline mode"`. -/
theorem offline_clean_text_counterexample :
    (∀ w ∈ splitWs "constructor",
        commonMisspellings.lookup (asciiLower w) = none) ∧
    handleOfflineMode "constructor"
      = { original := "constructor",
          suggestions := [{ text := JsPropValue.protoMember "constructor",
                            confidence := 0.7, type := "spelling" }],
          error := none } :=
  ⟨by decide, rfl⟩

/-- C10 (amended): in offline mode, when no whitespace-split token of
the input reads a truthy property off the dictionary object — neither an
own misspelling key nor an inherited `Object.prototype` member name such
as `constructor` or `__proto__` — the response has empty suggestions and
its `error` field set to `"No issues found in offline mode"`. -/
theorem offline_clean_text_error (text : String)
    (h : ∀ w ∈ splitWs text, jsRecordGet commonMisspellings (asciiLower w) = none) :
    handleOfflineMode text
      = { original := text, suggestions := [],
          error := some "No issues found in offline mode" } := by
  have hf : findMisspelledWords (splitWs text) = [] := by
    unfold findMisspelledWords
    have hfil : (splitWs text).filter
        (fun w => (jsRecordGet commonMisspellings (asciiLower w)).isSome) = [] := by
      rw [List.filter_eq_nil_iff]
      intro a ha
      simp [h a ha]
    simp only [findMisspelledWords, hfil]
    rfl
  simp only [handleOfflineMode, hf]
  rfl

/-- C10 witness: a clean input text none of whose tokens is a dictionary
key or a prototype member name. -/
theorem offline_clean_text_error_witness :
    (∀ w ∈ splitWs "the quick brown fox",
        jsRecordGet commonMisspellings (asciiLower w) = none) ∧
    handleOfflineMode "the quick brown fox"
      = { original := "the quick brown fox", suggestions := [],
          error := some "No issues found in offline mode" } :=
  ⟨by decide, offline_clean_text_error "the quick brown fox" (by decide)⟩

-- ===========================================================
-- Claim C1 — empty-text validation
-- ===========================================================

/-- C1: counterexample — the claim that every public entry point rejects
an empty-text request "before any cache lookup, rate-limiter token
consumption, or network activity" and that "the failure surfaces as a
thrown rejection rather than as a returned Response" is false:
`processRequest` performs no text validation at all — on empty text it
invokes the provider adapter, debits a rate-limiter token (10 → 9) and
even writes a cache entry — and `checkGrammar` on empty text catches its
own validation throw and returns an error `Response` (classified
`ERR_UNKNOWN`, not a dedicated validation code). -/
theorem processRequest_empty_text_counterexample :
    (processRequest ⟨1000, 1000, .ok "[]", .ok "[]"⟩
        ⟨"local", "", [], ⟨10, 10, 2, 0⟩⟩
        ⟨"", "grammar-check", none, some "en"⟩).lmCalls = 1 ∧
    (processRequest ⟨1000, 1000, .ok "[]", .ok "[]"⟩
        ⟨"local", "", [], ⟨10, 10, 2, 0⟩⟩
        ⟨"", "grammar-check", none, some "en"⟩).state.rateLimiter.tokens = 9 ∧
    (processRequest ⟨1000, 1000, .ok "[]", .ok "[]"⟩
        ⟨"local", "", [], ⟨10, 10, 2, 0⟩⟩
        ⟨"", "grammar-check", none, some "en"⟩).state.cache.length = 1 ∧
    (checkGrammar ⟨1000, 1000, .ok "[]", .ok "[]"⟩
        ⟨"local", "", [], ⟨10, 10, 2, 0⟩⟩ "" "en").response.error
      = some "ERR_UNKNOWN: Invalid text input" := by
  refine ⟨rfl, ?_, rfl, rfl⟩
  show (RateLimiter.consume 1 1000 1000 ⟨10, 10, 2, 0⟩).2.tokens = 9
  have hc : (1 : ℚ) ≤ mathMin 10 (10 + (1000 - 0) / 1000 * 2) := by
    rw [mathMin_eq_min]; norm_num
  unfold RateLimiter.consume RateLimiter.consumeStart RateLimiter.refill
  simp only []
  rw [if_pos hc]
  simp only []
  rw [mathMin_eq_min]
  norm_num

/-- C1 (amended): for empty-text requests, `checkGrammar` and
`rephraseText` throw internally, catch their own validation error, and
return (never reject) a response with error
`"ERR_UNKNOWN: Invalid text input"` and empty suggestions, leaving the
service state untouched and invoking no adapter; `processRequest` itself
performs no text validation, so an empty-text request that misses the
cache proceeds to a provider invocation like any other request. -/
theorem empty_text_validation_amended :
    (∀ (env : Env) (st : ServiceState) (language : String),
       (checkGrammar env st "" language).response.error
           = some "ERR_UNKNOWN: Invalid text input" ∧
       (checkGrammar env st "" language).response.suggestions = [] ∧
       (checkGrammar env st "" language).state = st ∧
       (checkGrammar env st "" language).lmCalls = 0 ∧
       (checkGrammar env st "" language).geminiCalls = 0) ∧
    (∀ (env : Env) (st : ServiceState) (style : String),
       (rephraseText env st "" style).response.error
           = some "ERR_UNKNOWN: Invalid text input" ∧
       (rephraseText env st "" style).response.suggestions = [] ∧
       (rephraseText env st "" style).state = st ∧
       (rephraseText env st "" style).lmCalls = 0 ∧
       (rephraseText env st "" style).geminiCalls = 0) ∧
    (∀ (env : Env) (st : ServiceState) (req : LLMRequest),
       req.text = "" →
       cacheGet st.cache env.now (generateCacheKey req) = none →
       st.provider = "local" →
       (processRequest env st req).lmCalls = 1) := by
  refine ⟨fun env st language => ⟨rfl, rfl, rfl, rfl, rfl⟩,
          fun env st style => ⟨rfl, rfl, rfl, rfl, rfl⟩,
          fun env st req htext hmiss hprov => ?_⟩
  simp only [processRequest, hmiss]
  have hif : (st.provider = "local" ∨ st.provider = "lmstudio") := Or.inl hprov
  simp only [dispatchProvider, if_pos hif]
  rcases hc : callLMStudio env st.geminiKey req with ⟨res, g⟩
  cases res <;> simp [hc]

/-- C1 witness: the amended statement applied to a concrete empty-text
request against an empty cache. -/
theorem empty_text_validation_amended_witness :
    (⟨"", "grammar-check", none, some "en"⟩ : LLMRequest).text = "" ∧
    cacheGet (⟨"local", "", [], ⟨10, 10, 2, 0⟩⟩ : ServiceState).cache
        (⟨1000, 1000, .ok "[]", .ok "[]"⟩ : Env).now
        (generateCacheKey ⟨"", "grammar-check", none, some "en"⟩) = none ∧
    (⟨"local", "", [], ⟨10, 10, 2, 0⟩⟩ : ServiceState).provider = "local" ∧
    (processRequest ⟨1000, 1000, .ok "[]", .ok "[]"⟩
        ⟨"local", "", [], ⟨10, 10, 2, 0⟩⟩
        ⟨"", "grammar-check", none, some "en"⟩).lmCalls = 1 :=
  ⟨rfl, rfl, rfl,
   empty_text_validation_amended.2.2 ⟨1000, 1000, .ok "[]", .ok "[]"⟩
     ⟨"local", "", [], ⟨10, 10, 2, 0⟩⟩
     ⟨"", "grammar-check", none, some "en"⟩ rfl rfl rfl⟩

-- ===========================================================
-- Claim C4 — debounce coalescing
-- ===========================================================

/-- After running a non-empty burst, the pending timer (if the state is
inspected before it fires) always belongs to the last call of the
burst. -/
theorem runCalls_pending_last (delay : ℚ) :
    ∀ (calls : List (ℚ × ℕ)) (s : DebounceState) (ex : List (ℚ × ℕ))
      (hne : calls ≠ []),
      ∃ ft, ((runCalls delay s ex calls).1).timeout
              = some (ft, (calls.getLast hne).2) := by
  intro calls
  induction calls with
  | nil => intro s ex hne; exact absurd rfl hne
  | cons c rest ih =>
    intro s ex hne
    obtain ⟨t, i⟩ := c
    cases rest with
    | nil =>
      exact ⟨t + mathMax 0 (delay - (t - (fireIfDue t s ex).1.lastCall)), rfl⟩
    | cons c2 rest2 =>
      rcases hfd : fireIfDue t s ex with ⟨s1, ex1⟩
      have hstep : runCalls delay s ex ((t, i) :: c2 :: rest2)
          = runCalls delay (registerCall delay t i s1) ex1 (c2 :: rest2) := by
        rw [runCalls, hfd]
      rw [hstep]
      obtain ⟨ft, hft⟩ :=
        ih (registerCall delay t i s1) ex1 (List.cons_ne_nil c2 rest2)
      refine ⟨ft, ?_⟩
      rw [hft]
      have : ((t, i) :: c2 :: rest2).getLast hne = (c2 :: rest2).getLast (List.cons_ne_nil c2 rest2) := by
        simp [List.getLast_cons]
      rw [this]

/-- C4: counterexample — three calls 50 ms apart with delay 500 ms and
an idle debouncer (`lastCall = 0`, as after construction) produce TWO
underlying invocations, not one: the first call's timer is scheduled
with zero delay (`max(0, 500 - (now - 0)) = 0`) and fires before the
second call arrives; the superseded second caller appears in no
invocation, so its promise never settles — the result is not delivered
to all three callers. -/
theorem debounce_burst_counterexample :
    runDebounce 500 ⟨none, 0⟩ [(1000000, 0), (1000050, 1), (1000100, 2)]
        = [(1000000, 0), (1000500, 2)] ∧
    (runDebounce 500 ⟨none, 0⟩ [(1000000, 0), (1000050, 1), (1000100, 2)]).length ≠ 1 ∧
    ¬ (1 : ℕ) ∈ (runDebounce 500 ⟨none, 0⟩
        [(1000000, 0), (1000050, 1), (1000100, 2)]).map Prod.snd := by
  have hrun : runDebounce 500 ⟨none, 0⟩ [(1000000, 0), (1000050, 1), (1000100, 2)]
      = [(1000000, 0), (1000500, 2)] := by
    have hf0 : fireIfDue 1000000 ⟨none, 0⟩ [] = (⟨none, 0⟩, []) := rfl
    have hr0 : registerCall 500 1000000 0 ⟨none, 0⟩ = ⟨some (1000000, 0), 0⟩ := by
      unfold registerCall
      rw [mathMax_eq_max]
      norm_num
    have hf1 : fireIfDue 1000050 ⟨some (1000000, 0), 0⟩ []
        = (⟨none, 1000000⟩, [((1000000 : ℚ), (0 : ℕ))]) := by
      show (if (1000000 : ℚ) < 1000050
            then ((⟨none, 1000000⟩ : DebounceState), ([] ++ [((1000000 : ℚ), (0 : ℕ))]))
            else (⟨some (1000000, 0), 0⟩, [])) = _
      rw [if_pos (by norm_num)]
      rfl
    have hr1 : registerCall 500 1000050 1 ⟨none, 1000000⟩
        = ⟨some (1000500, 1), 1000000⟩ := by
      unfold registerCall
      rw [mathMax_eq_max]
      norm_num
    have hf2 : fireIfDue 1000100 ⟨some (1000500, 1), 1000000⟩ [((1000000 : ℚ), (0 : ℕ))]
        = (⟨some (1000500, 1), 1000000⟩, [((1000000 : ℚ), (0 : ℕ))]) := by
      show (if (1000500 : ℚ) < 1000100
            then ((⟨none, 1000500⟩ : DebounceState),
                  [((1000000 : ℚ), (0 : ℕ))] ++ [((1000500 : ℚ), (1 : ℕ))])
            else (⟨some (1000500, 1), 1000000⟩, [((1000000 : ℚ), (0 : ℕ))])) = _
      rw [if_neg (by norm_num)]
    have hr2 : registerCall 500 1000100 2 ⟨some (1000500, 1), 1000000⟩
        = ⟨some (1000500, 2), 1000000⟩ := by
      unfold registerCall
      rw [mathMax_eq_max]
      norm_num
    simp only [runDebounce, runCalls, hf0, hr0, hf1, hr1, hf2, hr2]
    rfl
  refine ⟨hrun, ?_, ?_⟩
  · rw [hrun]; simp
  · rw [hrun]; simp

/-- C4 (amended): when every call of the burst arrives before the
previously scheduled timer fires (so no timer fires during the burst),
exactly one underlying invocation results — the last call's — and its
result settles only the last caller's promise; every superseded caller's
timer was cleared, so its promise never settles.  (A burst that starts
after an idle period does not satisfy the premise: its first timer is
scheduled with zero remaining delay and fires on its own, as the
counterexample shows.) -/
theorem debounce_coalescing_amended (delay : ℚ) (s : DebounceState)
    (calls : List (ℚ × ℕ)) (hne : calls ≠ [])
    (hquiet : (runCalls delay s [] calls).2 = []) :
    ∃ ft, runDebounce delay s calls = [(ft, (calls.getLast hne).2)] := by
  obtain ⟨ft, hft⟩ := runCalls_pending_last delay calls s [] hne
  rcases hrc : runCalls delay s [] calls with ⟨sf, ex⟩
  rw [hrc] at hft hquiet
  dsimp only at hft hquiet
  refine ⟨ft, ?_⟩
  unfold runDebounce
  rw [hrc]
  simp only [hft, hquiet, List.nil_append]

/-- C4 witness: three calls 100 ms apart while a recent execution
(`lastCall = 999900`) keeps every scheduled wait positive coalesce into
a single invocation delivered to the last caller. -/
theorem debounce_coalescing_amended_witness :
    ([((1000000 : ℚ), (0 : ℕ)), (1000100, 1), (1000200, 2)] ≠ []) ∧
    (runCalls 500 ⟨none, 999900⟩ []
        [((1000000 : ℚ), (0 : ℕ)), (1000100, 1), (1000200, 2)]).2 = [] ∧
    ∃ ft, runDebounce 500 ⟨none, 999900⟩
        [((1000000 : ℚ), (0 : ℕ)), (1000100, 1), (1000200, 2)] = [(ft, 2)] := by
  have hf0 : fireIfDue 1000000 ⟨none, 999900⟩ [] = (⟨none, 999900⟩, []) := rfl
  have hr0 : registerCall 500 1000000 0 ⟨none, 999900⟩
      = ⟨some (1000400, 0), 999900⟩ := by
    unfold registerCall
    rw [mathMax_eq_max]
    norm_num
  have hf1 : fireIfDue 1000100 ⟨some (1000400, 0), 999900⟩ []
      = (⟨some (1000400, 0), 999900⟩, []) := by
    show (if (1000400 : ℚ) < 1000100
          then ((⟨none, 1000400⟩ : DebounceState), [] ++ [((1000400 : ℚ), (0 : ℕ))])
          else (⟨some (1000400, 0), 999900⟩, [])) = _
    rw [if_neg (by norm_num)]
  have hr1 : registerCall 500 1000100 1 ⟨some (1000400, 0), 999900⟩
      = ⟨some (1000400, 1), 999900⟩ := by
    unfold registerCall
    rw [mathMax_eq_max]
    norm_num
  have hf2 : fireIfDue 1000200 ⟨some (1000400, 1), 999900⟩ []
      = (⟨some (1000400, 1), 999900⟩, []) := by
    show (if (1000400 : ℚ) < 1000200
          then ((⟨none, 1000400⟩ : DebounceState), [] ++ [((1000400 : ℚ), (1 : ℕ))])
          else (⟨some (1000400, 1), 999900⟩, [])) = _
    rw [if_neg (by norm_num)]
  have hr2 : registerCall 500 1000200 2 ⟨some (1000400, 1), 999900⟩
      = ⟨some (1000400, 2), 999900⟩ := by
    unfold registerCall
    rw [mathMax_eq_max]
    norm_num
  have hq : (runCalls 500 ⟨none, 999900⟩ []
      [((1000000 : ℚ), (0 : ℕ)), (1000100, 1), (1000200, 2)]).2 = [] := by
    simp only [runCalls, hf0, hr0, hf1, hr1, hf2, hr2]
  refine ⟨fun h => List.noConfusion h, hq, ?_⟩
  exact debounce_coalescing_amended 500 ⟨none, 999900⟩
    [((1000000 : ℚ), (0 : ℕ)), (1000100, 1), (1000200, 2)]
    (fun h => List.noConfusion h) hq

-- ===========================================================
-- Claim C6 — rate limiter invariant
-- ===========================================================

/-- C6: counterexample — the invariant `0 ≤ tokens ≤ capacity` is not
maintained at every observation point.  (i) Two concurrent consumers
that both find an empty bucket compute their waits from the same stale
token count; after the first wakes, refills and debits, the second's
unconditional debit drives `tokens` to `-1`.  (ii) A single
`consume(20)` against capacity 10 waits `(20-10)*500 = 5000` ms, but the
refill is capped at capacity, so the debit leaves `tokens = -10`; the
call does not actually wait "until cost tokens have accrued". -/
theorem rate_limiter_invariant_counterexample :
    (RateLimiter.consumeWake 1 500
      (RateLimiter.consumeWake 1 500
        (RateLimiter.consumeStart 1 0
          ((RateLimiter.consumeStart 1 0 ⟨0, 10, 2, 0⟩).2)).2)).tokens = -1 ∧
    (RateLimiter.consumeStart 1 0 (⟨0, 10, 2, 0⟩ : RateLimiter)).1 = some 500 ∧
    (RateLimiter.consume 20 0 5000 ⟨10, 10, 2, 0⟩).2.tokens = -10 := by
  have hA : RateLimiter.consumeStart 1 0 ⟨0, 10, 2, 0⟩ = (some 500, ⟨0, 10, 2, 0⟩) := by
    norm_num [RateLimiter.consumeStart, RateLimiter.refill, mathMin_eq_min]
  have hC : RateLimiter.consumeWake 1 500 ⟨0, 10, 2, 0⟩ = ⟨0, 10, 2, 500⟩ := by
    norm_num [RateLimiter.consumeWake, RateLimiter.refill, mathMin_eq_min]
  have hD : RateLimiter.consumeWake 1 500 ⟨0, 10, 2, 500⟩ = ⟨-1, 10, 2, 500⟩ := by
    norm_num [RateLimiter.consumeWake, RateLimiter.refill, mathMin_eq_min]
  have hE : RateLimiter.consumeStart 20 0 ⟨10, 10, 2, 0⟩ = (some 5000, ⟨10, 10, 2, 0⟩) := by
    norm_num [RateLimiter.consumeStart, RateLimiter.refill, mathMin_eq_min]
  have hF : RateLimiter.consumeWake 20 5000 ⟨10, 10, 2, 0⟩ = ⟨-10, 10, 2, 5000⟩ := by
    norm_num [RateLimiter.consumeWake, RateLimiter.refill, mathMin_eq_min]
  refine ⟨?_, ?_, ?_⟩
  · simp only [hA, hC, hD]
  · rw [hA]
  · unfold RateLimiter.consume
    rw [hE]
    simp only [hF]

/-- Lemma: `refill` keeps the limiter within `[previous tokens, maxTokens]` and
only updates the timestamp. -/
theorem refill_bounds (s : RateLimiter) (t : ℚ)
    (h0 : 0 ≤ s.tokens) (h1 : s.tokens ≤ s.maxTokens)
    (hr : 0 < s.refillRate) (hl : s.lastRefillTimestamp ≤ t) :
    s.tokens ≤ (s.refill t).tokens ∧ (s.refill t).tokens ≤ s.maxTokens ∧
    0 ≤ (s.refill t).tokens ∧ (s.refill t).maxTokens = s.maxTokens ∧
    (s.refill t).refillRate = s.refillRate ∧
    (s.refill t).lastRefillTimestamp = t := by
  unfold RateLimiter.refill
  simp only [mathMin_eq_min]
  have hadd : 0 ≤ (t - s.lastRefillTimestamp) / 1000 * s.refillRate := by
    apply mul_nonneg
    · apply div_nonneg _ (by norm_num)
      linarith
    · exact le_of_lt hr
  refine ⟨le_min h1 (by linarith), min_le_left _ _, ?_, trivial, trivial, trivial⟩
  exact le_trans h0 (le_min h1 (by linarith))

/-- The token count after a refill, written with Mathlib's `min`. -/
theorem refill_tokens_eq (s : RateLimiter) (t : ℚ) :
    (s.refill t).tokens
      = min s.maxTokens
          (s.tokens + (t - s.lastRefillTimestamp) / 1000 * s.refillRate) := by
  simp only [RateLimiter.refill, mathMin_eq_min]

/-- C6 (amended): provided consume operations do not overlap (the state
is not mutated by another consumer between a consume's two refills —
`wake` is no earlier than the computed deadline) and the requested cost
does not exceed capacity (the service only ever calls `consume()` with
cost 1 against capacity 10), `consume` always succeeds and preserves
`0 ≤ tokens ≤ capacity`, and `refill` increases tokens monotonically,
capped at capacity.  The counterexample shows both side conditions are
necessary. -/
theorem rate_limiter_invariant_amended (s : RateLimiter) (cost now wake : ℚ)
    (h0 : 0 ≤ s.tokens) (h1 : s.tokens ≤ s.maxTokens)
    (hr : 0 < s.refillRate) (hl : s.lastRefillTimestamp ≤ now)
    (hc0 : 0 ≤ cost) (hcm : cost ≤ s.maxTokens)
    (hw : ∀ d, (RateLimiter.consumeStart cost now s).1 = some d → d ≤ wake) :
    (RateLimiter.consume cost now wake s).1 = true ∧
    0 ≤ (RateLimiter.consume cost now wake s).2.tokens ∧
    (RateLimiter.consume cost now wake s).2.tokens
        ≤ (RateLimiter.consume cost now wake s).2.maxTokens ∧
    (RateLimiter.consume cost now wake s).2.maxTokens = s.maxTokens ∧
    (∀ t, s.lastRefillTimestamp ≤ t →
        s.tokens ≤ (s.refill t).tokens ∧ (s.refill t).tokens ≤ s.maxTokens) := by
  have hmono : ∀ t, s.lastRefillTimestamp ≤ t →
      s.tokens ≤ (s.refill t).tokens ∧ (s.refill t).tokens ≤ s.maxTokens := by
    intro t ht
    obtain ⟨a, b, _, _, _, _⟩ := refill_bounds s t h0 h1 hr ht
    exact ⟨a, b⟩
  obtain ⟨hra, hrb, hrc, hrd, hre, hrf⟩ := refill_bounds s now h0 h1 hr hl
  by_cases hcase : cost ≤ (s.refill now).tokens
  · have hcs : RateLimiter.consumeStart cost now s
        = (none, { s.refill now with tokens := (s.refill now).tokens - cost }) := by
      unfold RateLimiter.consumeStart
      rw [if_pos hcase]
    have hco : RateLimiter.consume cost now wake s
        = (true, { s.refill now with tokens := (s.refill now).tokens - cost }) := by
      unfold RateLimiter.consume
      rw [hcs]
    rw [hco]
    refine ⟨rfl, ?_, ?_, ?_, hmono⟩
    · show (0 : ℚ) ≤ (s.refill now).tokens - cost
      linarith
    · show (s.refill now).tokens - cost ≤ (s.refill now).maxTokens
      rw [hrd]
      linarith
    · show (s.refill now).maxTokens = s.maxTokens
      exact hrd
  · have hcs : RateLimiter.consumeStart cost now s
        = (some (now + (cost - (s.refill now).tokens) * (1000 / (s.refill now).refillRate)),
           s.refill now) := by
      unfold RateLimiter.consumeStart
      rw [if_neg hcase]
    have hdw : now + (cost - (s.refill now).tokens) * (1000 / (s.refill now).refillRate)
        ≤ wake := by
      apply hw
      rw [hcs]
    have hco : RateLimiter.consume cost now wake s
        = (true, RateLimiter.consumeWake cost wake (s.refill now)) := by
      unfold RateLimiter.consume
      rw [hcs]
    have hrpos : 0 < (s.refill now).refillRate := by
      rw [hre]; exact hr
    have key : cost ≤ (s.refill now).tokens
        + (wake - now) / 1000 * (s.refill now).refillRate := by
      have hd2 : (cost - (s.refill now).tokens) * (1000 / (s.refill now).refillRate)
          ≤ wake - now := by linarith
      have hstep := mul_le_mul_of_nonneg_right hd2
        (le_of_lt (div_pos hrpos (by norm_num : (0 : ℚ) < 1000)))
      have hsimp : (cost - (s.refill now).tokens) * (1000 / (s.refill now).refillRate)
          * ((s.refill now).refillRate / 1000) = cost - (s.refill now).tokens := by
        field_simp
      rw [hsimp] at hstep
      have hconv : (wake - now) * ((s.refill now).refillRate / 1000)
          = (wake - now) / 1000 * (s.refill now).refillRate := by ring
      rw [hconv] at hstep
      linarith
    have htok : ((s.refill now).refill wake).tokens
        = min (s.refill now).maxTokens
            ((s.refill now).tokens
              + (wake - (s.refill now).lastRefillTimestamp) / 1000
                * (s.refill now).refillRate) :=
      refill_tokens_eq (s.refill now) wake
    have hwt : cost ≤ ((s.refill now).refill wake).tokens := by
      rw [htok, hrf]
      refine le_min ?_ key
      rw [hrd]
      exact hcm
    have hwub : ((s.refill now).refill wake).tokens ≤ s.maxTokens := by
      rw [htok, ← hrd]
      exact min_le_left _ _
    rw [hco]
    refine ⟨rfl, ?_, ?_, ?_, hmono⟩
    · show (0 : ℚ) ≤ ((s.refill now).refill wake).tokens - cost
      linarith
    · show ((s.refill now).refill wake).tokens - cost
          ≤ ((s.refill now).refill wake).maxTokens
      have hm2 : ((s.refill now).refill wake).maxTokens = s.maxTokens := by
        show (s.refill now).maxTokens = s.maxTokens
        exact hrd
      rw [hm2]
      linarith
    · show ((s.refill now).refill wake).maxTokens = s.maxTokens
      exact hrd

/-- C6 witness: one sequential `consume(1)` against the default
configuration (capacity 10, refill 2/s) from a full bucket. -/
theorem rate_limiter_invariant_amended_witness :
    ((0 : ℚ) ≤ 10 ∧ (10 : ℚ) ≤ 10 ∧ (0 : ℚ) < 2 ∧ (0 : ℚ) ≤ 1 ∧ (1 : ℚ) ≤ 10) ∧
    (RateLimiter.consume 1 0 0 ⟨10, 10, 2, 0⟩).1 = true ∧
    0 ≤ (RateLimiter.consume 1 0 0 ⟨10, 10, 2, 0⟩).2.tokens ∧
    (RateLimiter.consume 1 0 0 ⟨10, 10, 2, 0⟩).2.tokens
        ≤ (RateLimiter.consume 1 0 0 ⟨10, 10, 2, 0⟩).2.maxTokens ∧
    (RateLimiter.consume 1 0 0 ⟨10, 10, 2, 0⟩).2.maxTokens = 10 ∧
    (∀ t, (0 : ℚ) ≤ t →
        (10 : ℚ) ≤ ((⟨10, 10, 2, 0⟩ : RateLimiter).refill t).tokens ∧
        ((⟨10, 10, 2, 0⟩ : RateLimiter).refill t).tokens ≤ 10) := by
  have hstart : (RateLimiter.consumeStart 1 0 ⟨10, 10, 2, 0⟩).1 = none := by
    have hc : (1 : ℚ) ≤ mathMin 10 (10 + (0 - 0) / 1000 * 2) := by
      rw [mathMin_eq_min]; norm_num
    unfold RateLimiter.consumeStart RateLimiter.refill
    simp only []
    rw [if_pos hc]
  refine ⟨⟨by norm_num, by norm_num, by norm_num, by norm_num, by norm_num⟩, ?_⟩
  exact rate_limiter_invariant_amended ⟨10, 10, 2, 0⟩ 1 0 0
    (by norm_num) (by norm_num) (by norm_num) (le_refl 0) (by norm_num) (by norm_num)
    (fun d hd => by rw [hstart] at hd; exact Option.noConfusion hd)


-- ===========================================================
-- Claim C2 — single-hop fallback
-- ===========================================================

/-- C2: when the primary (LM Studio) adapter fails on a cache miss: with
a Gemini credential configured, `callGemini` is invoked exactly once and
its result — success, or its classified error with the primary's error
discarded — is what the caller receives; with no credential, no fallback
call is attempted and the primary's classified error comes back as a
returned response with `error` set and empty suggestions (nothing
escapes `processRequest`). -/
theorem fallback_single_hop (env : Env) (st : ServiceState) (req : LLMRequest)
    (e : CaughtError)
    (hmiss : cacheGet st.cache env.now (generateCacheKey req) = none)
    (hprov : st.provider = "local" ∨ st.provider = "lmstudio")
    (hfail : callLMStudioPrimary env req = .error e) :
    (st.geminiKey ≠ "" →
       (processRequest env st req).geminiCalls = 1 ∧
       (processRequest env st req).response =
         (match callGemini env st.geminiKey req with
          | .ok r => r
          | .error e2 => handleError e2 req)) ∧
    (st.geminiKey = "" →
       (processRequest env st req).geminiCalls = 0 ∧
       (processRequest env st req).response = handleError e req ∧
       (processRequest env st req).response.error.isSome = true ∧
       (processRequest env st req).response.suggestions = []) := by
  constructor
  · intro hk
    have hlm : callLMStudio env st.geminiKey req
        = (callGemini env st.geminiKey req, 1) := by
      unfold callLMStudio
      rw [hfail]
      simp [hk]
    have hdp : dispatchProvider env st req = (callGemini env st.geminiKey req, 1, 1) := by
      unfold dispatchProvider
      rw [if_pos hprov, hlm]
    cases hg : callGemini env st.geminiKey req with
    | ok r =>
      have hP : processRequest env st req
          = ⟨r, { st with
              rateLimiter := (st.rateLimiter.consume 1 env.now env.wake).2,
              cache := cacheSet st.cache env.now (generateCacheKey req) r }, 1, 1⟩ := by
        simp only [processRequest]
        rw [hmiss, hdp, hg]
      rw [hP]
      exact ⟨rfl, rfl⟩
    | error e2 =>
      have hP : processRequest env st req
          = ⟨handleError e2 req, { st with
              rateLimiter := (st.rateLimiter.consume 1 env.now env.wake).2 }, 1, 1⟩ := by
        simp only [processRequest]
        rw [hmiss, hdp, hg]
      rw [hP]
      exact ⟨rfl, rfl⟩
  · intro hk
    have hlm : callLMStudio env st.geminiKey req = (.error e, 0) := by
      unfold callLMStudio
      rw [hfail]
      simp [hk]
    have hdp : dispatchProvider env st req = (.error e, 1, 0) := by
      unfold dispatchProvider
      rw [if_pos hprov, hlm]
    have hP : processRequest env st req
        = ⟨handleError e req, { st with
            rateLimiter := (st.rateLimiter.consume 1 env.now env.wake).2 }, 1, 0⟩ := by
      simp only [processRequest]
      rw [hmiss, hdp]
    rw [hP]
    exact ⟨rfl, rfl, handleError_isSome e req, handleError_suggestions_nil e req⟩

/-- C2 witness: a network failure of the primary with a configured
Gemini key falls back exactly once, and the caller receives the
fallback's outcome. -/
theorem fallback_single_hop_witness :
    cacheGet ([] : List (String × TimedEntry LLMResponse)) (0 : ℚ)
        (generateCacheKey ⟨"hi", "grammar-check", none, some "en"⟩) = none ∧
    callLMStudioPrimary ⟨0, 0, .error (.axios none true), .ok "[]"⟩
        ⟨"hi", "grammar-check", none, some "en"⟩ = .error (.axios none true) ∧
    (processRequest ⟨0, 0, .error (.axios none true), .ok "[]"⟩
        ⟨"local", "key", [], ⟨10, 10, 2, 0⟩⟩
        ⟨"hi", "grammar-check", none, some "en"⟩).geminiCalls = 1 ∧
    (processRequest ⟨0, 0, .error (.axios none true), .ok "[]"⟩
        ⟨"local", "key", [], ⟨10, 10, 2, 0⟩⟩
        ⟨"hi", "grammar-check", none, some "en"⟩).response =
      (match callGemini ⟨0, 0, .error (.axios none true), .ok "[]"⟩ "key"
               ⟨"hi", "grammar-check", none, some "en"⟩ with
       | .ok r => r
       | .error e2 => handleError e2 ⟨"hi", "grammar-check", none, some "en"⟩) := by
  have h := fallback_single_hop ⟨0, 0, .error (.axios none true), .ok "[]"⟩
    ⟨"local", "key", [], ⟨10, 10, 2, 0⟩⟩
    ⟨"hi", "grammar-check", none, some "en"⟩ (.axios none true)
    rfl (Or.inl rfl) rfl
  have h2 := h.1 (by decide)
  exact ⟨rfl, rfl, h2.1, h2.2⟩

-- ===========================================================
-- Claim C3 — cache idempotence
-- ===========================================================

/-- C3: after a first `processRequest` call that misses the cache and
succeeds, a second call with byte-identical request fields within the
TTL returns the exact cached response with zero additional adapter
invocations and an unchanged service state (in particular no
rate-limiter token is consumed and no provider is contacted). -/
theorem cache_idempotence (env1 env2 : Env) (st : ServiceState)
    (req : LLMRequest) (_htext : req.text ≠ "")
    (hmiss : cacheGet st.cache env1.now (generateCacheKey req) = none)
    (hok : (processRequest env1 st req).response.error = none)
    (httl : env2.now - env1.now ≤ cacheTtlMs) :
    (processRequest env2 (processRequest env1 st req).state req).response
        = (processRequest env1 st req).response ∧
    (processRequest env2 (processRequest env1 st req).state req).lmCalls = 0 ∧
    (processRequest env2 (processRequest env1 st req).state req).geminiCalls = 0 ∧
    (processRequest env2 (processRequest env1 st req).state req).state
        = (processRequest env1 st req).state := by
  rcases hdp : dispatchProvider env1 st req with ⟨res, l, g⟩
  cases res with
  | error e =>
    exfalso
    have hP : processRequest env1 st req
        = ⟨handleError e req, { st with
            rateLimiter := (st.rateLimiter.consume 1 env1.now env1.wake).2 }, l, g⟩ := by
      simp only [processRequest]
      rw [hmiss, hdp]
    rw [hP] at hok
    have hsome := handleError_isSome e req
    rw [show (⟨handleError e req, { st with
          rateLimiter := (st.rateLimiter.consume 1 env1.now env1.wake).2 },
          l, g⟩ : ProcResult).response = handleError e req from rfl] at hok
    rw [hok] at hsome
    exact Bool.noConfusion hsome
  | ok resp =>
    have hP : processRequest env1 st req
        = ⟨resp, { st with
            rateLimiter := (st.rateLimiter.consume 1 env1.now env1.wake).2,
            cache := cacheSet st.cache env1.now (generateCacheKey req) resp }, l, g⟩ := by
      simp only [processRequest]
      rw [hmiss, hdp]
    have hhit : cacheGet
        ({ st with
            rateLimiter := (st.rateLimiter.consume 1 env1.now env1.wake).2,
            cache := cacheSet st.cache env1.now (generateCacheKey req) resp }
          : ServiceState).cache env2.now (generateCacheKey req) = some resp :=
      cacheGet_cacheSet_same st.cache env1.now env2.now (generateCacheKey req) resp httl
    have hP2 : processRequest env2
        { st with
            rateLimiter := (st.rateLimiter.consume 1 env1.now env1.wake).2,
            cache := cacheSet st.cache env1.now (generateCacheKey req) resp } req
        = ⟨resp, { st with
            rateLimiter := (st.rateLimiter.consume 1 env1.now env1.wake).2,
            cache := cacheSet st.cache env1.now (generateCacheKey req) resp }, 0, 0⟩ := by
      simp only [processRequest]
      rw [hhit]
    simp only [hP, hP2]
    refine ⟨?_, ?_, ?_, ?_⟩ <;> first | rfl | trivial

/-- C3 witness: a successful grammar check for `"Hello"` is cached; an
identical request one second later is served from the cache with no
adapter call and an unchanged state. -/
theorem cache_idempotence_witness :
    (⟨"Hello", "grammar-check", none, some "en"⟩ : LLMRequest).text ≠ "" ∧
    cacheGet ([] : List (String × TimedEntry LLMResponse)) (1000 : ℚ)
        (generateCacheKey ⟨"Hello", "grammar-check", none, some "en"⟩) = none ∧
    (processRequest ⟨1000, 1000, .ok "[]", .ok "[]"⟩
        ⟨"local", "", [], ⟨10, 10, 2, 0⟩⟩
        ⟨"Hello", "grammar-check", none, some "en"⟩).response.error = none ∧
    (2000 : ℚ) - 1000 ≤ cacheTtlMs ∧
    ((processRequest ⟨2000, 2000, .error (.axios none true), .error (.axios none true)⟩
        (processRequest ⟨1000, 1000, .ok "[]", .ok "[]"⟩
            ⟨"local", "", [], ⟨10, 10, 2, 0⟩⟩
            ⟨"Hello", "grammar-check", none, some "en"⟩).state
        ⟨"Hello", "grammar-check", none, some "en"⟩).response
      = (processRequest ⟨1000, 1000, .ok "[]", .ok "[]"⟩
            ⟨"local", "", [], ⟨10, 10, 2, 0⟩⟩
            ⟨"Hello", "grammar-check", none, some "en"⟩).response ∧
     (processRequest ⟨2000, 2000, .error (.axios none true), .error (.axios none true)⟩
        (processRequest ⟨1000, 1000, .ok "[]", .ok "[]"⟩
            ⟨"local", "", [], ⟨10, 10, 2, 0⟩⟩
            ⟨"Hello", "grammar-check", none, some "en"⟩).state
        ⟨"Hello", "grammar-check", none, some "en"⟩).lmCalls = 0 ∧
     (processRequest ⟨2000, 2000, .error (.axios none true), .error (.axios none true)⟩
        (processRequest ⟨1000, 1000, .ok "[]", .ok "[]"⟩
            ⟨"local", "", [], ⟨10, 10, 2, 0⟩⟩
            ⟨"Hello", "grammar-check", none, some "en"⟩).state
        ⟨"Hello", "grammar-check", none, some "en"⟩).geminiCalls = 0 ∧
     (processRequest ⟨2000, 2000, .error (.axios none true), .error (.axios none true)⟩
        (processRequest ⟨1000, 1000, .ok "[]", .ok "[]"⟩
            ⟨"local", "", [], ⟨10, 10, 2, 0⟩⟩
            ⟨"Hello", "grammar-check", none, some "en"⟩).state
        ⟨"Hello", "grammar-check", none, some "en"⟩).state
      = (processRequest ⟨1000, 1000, .ok "[]", .ok "[]"⟩
            ⟨"local", "", [], ⟨10, 10, 2, 0⟩⟩
            ⟨"Hello", "grammar-check", none, some "en"⟩).state) := by
  refine ⟨by decide, rfl, rfl, by norm_num [cacheTtlMs], ?_⟩
  exact cache_idempotence ⟨1000, 1000, .ok "[]", .ok "[]"⟩
    ⟨2000, 2000, .error (.axios none true), .error (.axios none true)⟩
    ⟨"local", "", [], ⟨10, 10, 2, 0⟩⟩
    ⟨"Hello", "grammar-check", none, some "en"⟩
    (by decide) rfl rfl (by norm_num [cacheTtlMs])

-- ===========================================================
-- Claim C5 — suggestion defaults and order
-- ===========================================================

/-- The three behaviours of JavaScript `a || b` on an optional field. -/
theorem jsOr_cases (v : Option Json) (dflt : Json) :
    (∀ x, v = some x → jsTruthy x = true → jsOr v dflt = x) ∧
    (v = none → jsOr v dflt = dflt) ∧
    (∀ x, v = some x → jsTruthy x = false → jsOr v dflt = dflt) := by
  refine ⟨?_, ?_, ?_⟩
  · intro x hx ht
    rw [hx]
    simp [jsOr, ht]
  · intro hx
    rw [hx]
    rfl
  · intro x hx ht
    rw [hx]
    simp [jsOr, ht]

/-- Field equations of a successfully converted suggestion. -/
theorem convertOne_ok (x : Json) (s : SSuggestion) (h : convertOne x = .ok s) :
    s.text = jsGetField x "text" ∧
    s.confidence = jsOr (jsGetField x "confidence") (.num 0.8) ∧
    s.type = jsOr (jsGetField x "type") (.str "unknown") := by
  cases x <;> simp only [convertOne] at h <;>
    first
      | exact Except.noConfusion h
      | (injection h with h2; rw [← h2]; exact ⟨rfl, rfl, rfl⟩)

/-- C5: counterexample — a provider-supplied confidence of `0` is NOT
preserved: `s.confidence || 0.8` treats `0` as falsy, so the stored
confidence becomes `0.8` even though the provider supplied a value. -/
theorem suggestion_zero_confidence_counterexample :
    parseProviderPayload "Failed to parse LM Studio response" "x"
        "[\x7b\"text\":\"a\",\"confidence\":0,\"type\":\"grammar\"\x7d]"
      = .ok { original := "x",
              suggestions := [{ text := some (.str "a"),
                                confidence := .num 0.8,
                                type := .str "grammar" }],
              error := none } ∧
    Json.num 0.8 ≠ Json.num 0 := by
  refine ⟨rfl, ?_⟩
  intro h
  injection h with h2
  norm_num at h2

/-- C5 (amended): a parsed payload's suggestions are in provider order —
the i-th suggestion comes from the i-th array element — with `text`
copied as-is, while `confidence` keeps the provider value only when that
value is truthy (defaulting to `0.8` when the field is absent or falsy,
including a supplied `0`), and `type` keeps the provider value only when
truthy (defaulting to `"unknown"` when absent or falsy, including
`""`). -/
theorem suggestion_defaults_amended :
    (∀ (m o t : String) (r : LLMResponse),
       parseProviderPayload m o t = .ok r →
       ∃ sub elems, extractJsonArray t = some sub ∧
         jsonParse sub = some (.arr elems) ∧
         convertSuggestions elems = .ok r.suggestions ∧
         r.original = o ∧ r.error = none) ∧
    (∀ (xs : List Json) (out : List SSuggestion),
       convertSuggestions xs = .ok out →
       out.length = xs.length ∧
       (∀ (i : ℕ) (x : Json), xs.get? i = some x →
         ∃ s : SSuggestion, out.get? i = some s ∧
           s.text = jsGetField x "text" ∧
           (∀ v, jsGetField x "confidence" = some v → jsTruthy v = true →
              s.confidence = v) ∧
           (jsGetField x "confidence" = none → s.confidence = Json.num 0.8) ∧
           (∀ v, jsGetField x "confidence" = some v → jsTruthy v = false →
              s.confidence = Json.num 0.8) ∧
           (∀ v, jsGetField x "type" = some v → jsTruthy v = true →
              s.type = v) ∧
           (jsGetField x "type" = none → s.type = Json.str "unknown") ∧
           (∀ v, jsGetField x "type" = some v → jsTruthy v = false →
              s.type = Json.str "unknown"))) := by
  constructor
  · intro m o t r h
    unfold parseProviderPayload at h
    split at h
    · exact Except.noConfusion h
    · rename_i sub hsub
      split at h
      · exact Except.noConfusion h
      · rename_i j elems hj
        split at h
        · exact Except.noConfusion h
        · rename_i ss hss
          injection h with h2
          refine ⟨sub, elems, hsub, hj, ?_, ?_, ?_⟩
          · rw [← h2]
            exact hss
          · rw [← h2]
          · rw [← h2]
      · exact Except.noConfusion h
  · intro xs
    induction xs with
    | nil =>
      intro out h
      simp only [convertSuggestions] at h
      injection h with h2
      rw [← h2]
      exact ⟨rfl, fun i x hx => by simp at hx⟩
    | cons x xs ih =>
      intro out h
      unfold convertSuggestions at h
      cases hc : convertOne x with
      | error e => rw [hc] at h; exact Except.noConfusion h
      | ok s =>
        rw [hc] at h
        cases hr : convertSuggestions xs with
        | error e => rw [hr] at h; exact Except.noConfusion h
        | ok rest =>
          rw [hr] at h
          injection h with h2
          obtain ⟨hlen, hidx⟩ := ih rest hr
          obtain ⟨ht, hcnf, htyp⟩ := convertOne_ok x s hc
          rw [← h2]
          constructor
          · simp [hlen]
          · intro i y hy
            cases i with
            | zero =>
              simp only [List.get?] at hy
              injection hy with hy2
              subst hy2
              refine ⟨s, rfl, ht, ?_, ?_, ?_, ?_, ?_, ?_⟩
              · intro v hv htr
                rw [hcnf]
                exact (jsOr_cases _ _).1 v hv htr
              · intro hv
                rw [hcnf]
                exact (jsOr_cases _ _).2.1 hv
              · intro v hv htr
                rw [hcnf]
                exact (jsOr_cases _ _).2.2 v hv htr
              · intro v hv htr
                rw [htyp]
                exact (jsOr_cases _ _).1 v hv htr
              · intro hv
                rw [htyp]
                exact (jsOr_cases _ _).2.1 hv
              · intro v hv htr
                rw [htyp]
                exact (jsOr_cases _ _).2.2 v hv htr
            | succ n =>
              simp only [List.get?] at hy
              simpa using hidx n y hy

/-- C5 witness: a two-element payload whose fields exercise the kept and
defaulted cases, processed through the full parse path. -/
theorem suggestion_defaults_amended_witness :
    parseProviderPayload "m" "orig"
        "[\x7b\"text\":\"a\",\"confidence\":3,\"type\":\"grammar\"\x7d,\x7b\"text\":\"b\"\x7d]"
      = .ok { original := "orig",
              suggestions := [
                { text := some (.str "a"), confidence := .num 3,
                  type := .str "grammar" },
                { text := some (.str "b"), confidence := .num 0.8,
                  type := .str "unknown" }],
              error := none } ∧
    (∃ sub elems,
       extractJsonArray
           "[\x7b\"text\":\"a\",\"confidence\":3,\"type\":\"grammar\"\x7d,\x7b\"text\":\"b\"\x7d]"
         = some sub ∧
       jsonParse sub = some (.arr elems) ∧
       convertSuggestions elems = .ok [
         { text := some (.str "a"), confidence := Json.num 3,
           type := .str "grammar" },
         { text := some (.str "b"), confidence := .num 0.8,
           type := .str "unknown" }] ∧
       ("orig" : String) = "orig" ∧ (none : Option String) = none) := by
  constructor
  · rfl
  · exact suggestion_defaults_amended.1 "m" "orig"
      "[\x7b\"text\":\"a\",\"confidence\":3,\"type\":\"grammar\"\x7d,\x7b\"text\":\"b\"\x7d]"
      { original := "orig",
        suggestions := [
          { text := some (.str "a"), confidence := .num 3,
            type := .str "grammar" },
          { text := some (.str "b"), confidence := .num 0.8,
            type := .str "unknown" }],
        error := none } rfl

-- ===========================================================
-- Claim C7 — only successful responses are cached
-- ===========================================================

/-- A successful dispatch outcome carries no `error` field. -/
theorem dispatchProvider_ok_no_error (env : Env) (st : ServiceState)
    (req : LLMRequest) (r : LLMResponse) (l g : ℕ)
    (h : dispatchProvider env st req = (.ok r, l, g)) : r.error = none := by
  unfold dispatchProvider at h
  split at h
  · rcases hlm : callLMStudio env st.geminiKey req with ⟨res, g2⟩
    rw [hlm] at h
    simp only [Prod.mk.injEq] at h
    obtain ⟨h1, -, -⟩ := h
    exact callLMStudio_ok_no_error env st.geminiKey req r g2 (h1 ▸ hlm)
  · simp only [Prod.mk.injEq] at h
    exact callGemini_ok_no_error env st.geminiKey req r h.1

/-- C7: every cache entry present after an orchestration step was either
already present before it or holds a response with no `error` field —
for the main-process service cache and for the renderer cache alike;
error responses are never written. -/
theorem cache_only_success :
    (∀ (env : Env) (st : ServiceState) (req : LLMRequest)
       (p : String × TimedEntry LLMResponse),
       p ∈ (processRequest env st req).state.cache →
       p ∈ st.cache ∨ p.2.value.error = none) ∧
    (∀ (online : Bool) (ipc : ClientResponse) (now : ℚ)
       (cache : List (String × TimedEntry ClientResponse))
       (text : String) (language : Option String)
       (p : String × TimedEntry ClientResponse),
       p ∈ (clientCheckGrammar online ipc now cache text language).2.1 →
       p ∈ cache ∨ p.2.value.error = none) := by
  constructor
  · intro env st req p hp
    cases hcg : cacheGet st.cache env.now (generateCacheKey req) with
    | some cached =>
      have hP : processRequest env st req = ⟨cached, st, 0, 0⟩ := by
        simp only [processRequest]
        rw [hcg]
      rw [hP] at hp
      exact Or.inl hp
    | none =>
      rcases hdp : dispatchProvider env st req with ⟨res, l, g⟩
      cases res with
      | ok resp =>
        have hP : processRequest env st req
            = ⟨resp, { st with
                rateLimiter := (st.rateLimiter.consume 1 env.now env.wake).2,
                cache := cacheSet st.cache env.now (generateCacheKey req) resp },
               l, g⟩ := by
          simp only [processRequest]
          rw [hcg, hdp]
        rw [hP] at hp
        rcases mem_cacheSet hp with h | h
        · right
          rw [h]
          exact dispatchProvider_ok_no_error env st req resp l g hdp
        · exact Or.inl h
      | error e =>
        have hP : processRequest env st req
            = ⟨handleError e req, { st with
                rateLimiter := (st.rateLimiter.consume 1 env.now env.wake).2 },
               l, g⟩ := by
          simp only [processRequest]
          rw [hcg, hdp]
        rw [hP] at hp
        exact Or.inl hp
  · intro online ipc now cache text language p hp
    cases hcg : cacheGet cache now (clientGrammarKey text language) with
    | some cached =>
      have hP : clientCheckGrammar online ipc now cache text language
          = (cached, cache, 0) := by
        simp only [clientCheckGrammar]
        rw [hcg]
      rw [hP] at hp
      exact Or.inl hp
    | none =>
      cases online with
      | false =>
        have hP : clientCheckGrammar false ipc now cache text language
            = (handleOfflineMode text, cache, 0) := by
          simp only [clientCheckGrammar]
          rw [hcg]
          rfl
        rw [hP] at hp
        exact Or.inl hp
      | true =>
        by_cases he : ipc.error = none
        · have hP : clientCheckGrammar true ipc now cache text language
              = (ipc, cacheSet cache now (clientGrammarKey text language) ipc, 1) := by
            simp only [clientCheckGrammar]
            rw [hcg]
            simp [he]
          rw [hP] at hp
          rcases mem_cacheSet hp with h | h
          · right
            rw [h]
            exact he
          · exact Or.inl h
        · have hP : clientCheckGrammar true ipc now cache text language
              = (ipc, cache, 1) := by
            simp only [clientCheckGrammar]
            rw [hcg]
            simp [he]
          rw [hP] at hp
          exact Or.inl hp

/-- C7 witness: a successful grammar check writes exactly one entry, and
that entry's response has no error. -/
theorem cache_only_success_witness :
    ((generateCacheKey ⟨"Hello", "grammar-check", none, some "en"⟩,
      (⟨⟨"Hello", [], none⟩, 1000⟩ : TimedEntry LLMResponse)) ∈
        (processRequest ⟨1000, 1000, .ok "[]", .ok "[]"⟩
            ⟨"local", "", [], ⟨10, 10, 2, 0⟩⟩
            ⟨"Hello", "grammar-check", none, some "en"⟩).state.cache) ∧
    ((generateCacheKey ⟨"Hello", "grammar-check", none, some "en"⟩,
      (⟨⟨"Hello", [], none⟩, 1000⟩ : TimedEntry LLMResponse)) ∈
        ([] : List (String × TimedEntry LLMResponse)) ∨
     ((⟨⟨"Hello", [], none⟩, 1000⟩ : TimedEntry LLMResponse)).value.error = none) := by
  have hp : ((generateCacheKey ⟨"Hello", "grammar-check", none, some "en"⟩,
      (⟨⟨"Hello", [], none⟩, 1000⟩ : TimedEntry LLMResponse)) ∈
        (processRequest ⟨1000, 1000, .ok "[]", .ok "[]"⟩
            ⟨"local", "", [], ⟨10, 10, 2, 0⟩⟩
            ⟨"Hello", "grammar-check", none, some "en"⟩).state.cache) := by
    show _ ∈ [(generateCacheKey ⟨"Hello", "grammar-check", none, some "en"⟩,
      (⟨⟨"Hello", [], none⟩, 1000⟩ : TimedEntry LLMResponse))]
    exact List.mem_singleton.mpr rfl
  exact ⟨hp, cache_only_success.1 _ _ _ _ hp⟩

-- ===========================================================
-- Claim C8 — payload array extraction
-- ===========================================================

/-- C8: counterexample — extraction is greedy (first `[` to last `]`),
not "first well-formed JSON array": when the surrounding prose itself
contains a bracket, the matched substring is unparsable and the call
fails even though a well-formed array (`[{"text":"ok"}]`, present as a
substring) exists in the payload; the resulting error is the
provider-specific parse message, classified later as `ERR_UNKNOWN`. -/
theorem parse_first_array_counterexample :
    parseProviderPayload "Failed to parse LM Studio response" "t"
        "Options: [a] and [\x7b\"text\":\"ok\"\x7d]"
      = .error (.error "Unexpected token in JSON") ∧
    jsonParse "[\x7b\"text\":\"ok\"\x7d]"
      = some (.arr [.obj [("text", .str "ok")]]) ∧
    strIncludes "Options: [a] and [\x7b\"text\":\"ok\"\x7d]"
        "[\x7b\"text\":\"ok\"\x7d]" = true ∧
    extractJsonArray "Options: [a] and [\x7b\"text\":\"ok\"\x7d]"
      = some "[a] and [\x7b\"text\":\"ok\"\x7d]" ∧
    (handleError (.error "Failed to parse LM Studio response")
        ⟨"t", "grammar-check", none, some "en"⟩).error
      = some "ERR_UNKNOWN: Failed to parse LM Studio response" :=
  ⟨rfl, rfl, rfl, rfl, rfl⟩

/-- Lemma: `firstIdxOf` skips a run of characters that does not contain the character. -/
theorem firstIdxOf_append_of_notMem (c : Char) (l1 l2 : List Char)
    (h : c ∉ l1) :
    firstIdxOf c (l1 ++ l2) = (firstIdxOf c l2).map (· + l1.length) := by
  induction l1 with
  | nil =>
    simp only [List.nil_append, List.length_nil]
    cases firstIdxOf c l2 <;> simp
  | cons a l ih =>
    have hne : a ≠ c := fun hac => h (hac ▸ List.mem_cons_self a l)
    have hm : c ∉ l := fun hmem => h (List.mem_cons_of_mem a hmem)
    rw [List.cons_append]
    rw [show firstIdxOf c (a :: (l ++ l2))
          = (firstIdxOf c (l ++ l2)).map (· + 1) from by
        simp [firstIdxOf, hne]]
    rw [ih hm]
    simp only [List.length_cons]
    cases firstIdxOf c l2 with
    | none => rfl
    | some k => simp [Nat.add_assoc]

/-- Lemma: `firstIdxOf` finds the character at the head. -/
theorem firstIdxOf_cons_self (c : Char) (l : List Char) :
    firstIdxOf c (c :: l) = some 0 := by
  simp [firstIdxOf]

/-- The greedy extraction applied to an array wrapped in bracket-free
prose or fences returns exactly the wrapped array. -/
theorem extractJsonArrayAux_wrap (pre mid post : List Char)
    (hpre : '[' ∉ pre) (hpost : ']' ∉ post) :
    extractJsonArrayAux ((pre ++ ('[' :: (mid ++ [']']))) ++ post)
      = some ('[' :: (mid ++ [']'])) := by
  have hlen : ((pre ++ ('[' :: (mid ++ [']']))) ++ post).length
      = pre.length + mid.length + 2 + post.length := by
    simp only [List.length_append, List.length_cons, List.length_nil]
    omega
  have hfirst : firstIdxOf '[' ((pre ++ ('[' :: (mid ++ [']']))) ++ post)
      = some pre.length := by
    rw [List.append_assoc, firstIdxOf_append_of_notMem _ _ _ hpre,
      List.cons_append, firstIdxOf_cons_self]
    simp
  have hrev : (((pre ++ ('[' :: (mid ++ [']']))) ++ post)).reverse
      = post.reverse ++ ((']' :: mid.reverse) ++ ('[' :: pre.reverse)) := by
    simp [List.reverse_append]
  have hpost' : ']' ∉ post.reverse := by
    intro hmem
    exact hpost (List.mem_reverse.mp hmem)
  have hlast : lastIdxOf ']' ((pre ++ ('[' :: (mid ++ [']']))) ++ post)
      = some (pre.length + mid.length + 1) := by
    unfold lastIdxOf
    rw [hrev, firstIdxOf_append_of_notMem _ _ _ hpost', List.cons_append,
      firstIdxOf_cons_self]
    simp only [Option.map_some', List.length_reverse]
    congr 1
    rw [hlen]
    omega
  unfold extractJsonArrayAux
  simp only [hfirst, hlast]
  rw [if_pos (by omega)]
  congr 1
  rw [List.append_assoc, List.drop_left]
  have harr : (pre.length + mid.length + 1 - pre.length + 1 : ℕ)
      = ('[' :: (mid ++ [']'])).length := by
    simp only [List.length_cons, List.length_append, List.length_nil]
    omega
  rw [harr]
  exact List.take_left _ _

/-- C8 (amended): extraction takes the substring from the first `[` to
the last `]` of the payload, so an array wrapped in prose or markdown
fences is recovered exactly when the wrapper contributes no `[` before
nor `]` after the array (the counterexample shows stray brackets defeat
it — the first *well-formed* array is not located); a payload with no
extractable bracket span produces the provider-specific parse-failure
error, which `handleError` classifies as `ERR_UNKNOWN` (not a dedicated
Parse code) in a returned response — never an uncaught crash. -/
theorem parse_extraction_amended :
    (∀ (pre mid post : List Char), '[' ∉ pre → ']' ∉ post →
       extractJsonArray (String.mk ((pre ++ ('[' :: (mid ++ [']']))) ++ post))
         = some (String.mk ('[' :: (mid ++ [']'])))) ∧
    (∀ (txt orig m : String), extractJsonArray txt = none →
       parseProviderPayload m orig txt = .error (.error m)) ∧
    (∀ (req : LLMRequest) (m : String),
       strIncludes m "API key" = false → strIncludes m "timeout" = false →
       handleError (.error m) req
         = { original := req.text, suggestions := [],
             error := some ("ERR_UNKNOWN: " ++ m) }) := by
  refine ⟨?_, ?_, ?_⟩
  · intro pre mid post hpre hpost
    show (extractJsonArrayAux
        ((pre ++ ('[' :: (mid ++ [']']))) ++ post)).map String.mk
      = some (String.mk ('[' :: (mid ++ [']'])))
    rw [extractJsonArrayAux_wrap pre mid post hpre hpost]
    rfl
  · intro txt orig m h
    unfold parseProviderPayload
    rw [h]
  · intro req m h1 h2
    have hcode : (if strIncludes m "API key" = true then ErrorCodes.AUTH_ERROR else if strIncludes m "timeout" = true then ErrorCodes.TIMEOUT_ERROR else ErrorCodes.UNKNOWN_ERROR) = ErrorCodes.UNKNOWN_ERROR := by
      rw [h1, h2]
      rfl
    show ({ original := req.text, suggestions := [], error := some ((if strIncludes m "API key" = true then ErrorCodes.AUTH_ERROR else if strIncludes m "timeout" = true then ErrorCodes.TIMEOUT_ERROR else ErrorCodes.UNKNOWN_ERROR) ++ ": " ++ m) } : LLMResponse) = { original := req.text, suggestions := [], error := some ("ERR_UNKNOWN: " ++ m) }
    rw [hcode]
    rfl

/-- C8 witness: a markdown-fenced array is extracted exactly, and a
bracket-free payload yields the classified parse-failure response. -/
theorem parse_extraction_amended_witness :
    ('[' ∉ ("```json\n" : String).data) ∧
    (']' ∉ ("\n```" : String).data) ∧
    extractJsonArray (String.mk ((("```json\n" : String).data
          ++ ('[' :: (("\x7b\"text\":\"a\"\x7d" : String).data ++ [']'])))
        ++ ("\n```" : String).data))
      = some (String.mk
          ('[' :: (("\x7b\"text\":\"a\"\x7d" : String).data ++ [']']))) ∧
    extractJsonArray "no array here" = none ∧
    parseProviderPayload "Failed to parse Gemini response" "orig" "no array here"
      = .error (.error "Failed to parse Gemini response") := by
  refine ⟨by decide, by decide, ?_, rfl, ?_⟩
  · exact parse_extraction_amended.1 _ _ _ (by decide) (by decide)
  · exact parse_extraction_amended.2.1 "no array here" "orig"
      "Failed to parse Gemini response" rfl
